import Mathlib

/-!
Verification of the pdfthis worker (`src/worker.js`): a shallow embedding of
its text-processing, word-wrap, pagination and request-handling logic, with
theorems checking the natural-language specification against it.

Conventions of the embedding:
* JavaScript strings are modelled as Lean `String` (a list of characters);
  `slice(0, n)` is `List.take n` on the character list.
* The font-metrics collaborator `fnt.widthOfTextAtSize`, which may throw, is
  modelled as an oracle `meas : String → Option ℚ`; `none` models a thrown
  measurement error, which the code replaces by the deterministic estimate
  `t.length * size * 0.6` (here `3/5 : ℚ`).
* The drawing collaborator `page.drawText`, which may throw on unsupported
  glyphs, is modelled as a failure predicate `fails : String → Bool`.
* Numeric page geometry uses `ℚ` (the JS numbers involved stay exact).
-/

namespace Pdfthis

/-- `const margin = 50`. -/
def margin : ℚ := 50

/-- Page width of the default Letter page (`612`). -/
def width : ℚ := 612

/-- Page height of the default Letter page (`792`). -/
def height : ℚ := 792

/-- `const lineHeight = 18`. -/
def lineHeight : ℚ := 18

/-- `const bodySize = 12`. -/
def bodySize : ℚ := 12

/-- `const titleSize = 26`. -/
def titleSize : ℚ := 26

/-- `const sectionHeaderSize = 14`. -/
def sectionHeaderSize : ℚ := 14

/-- `const maxTextWidth = width - margin * 2`. -/
def maxTextWidth : ℚ := width - margin * 2

/-- `const MAX_PARAMS = 50`. -/
def MAX_PARAMS : ℕ := 50

/-- `const MAX_VALUE_LEN = 500`. -/
def MAX_VALUE_LEN : ℕ := 500

/-- The character class `[ -~]` used by `processText` and the
glyph-fallback `replace` calls. -/
def asciiPrintable (c : Char) : Bool :=
  0x20 ≤ c.toNat && c.toNat ≤ 0x7E

/-- The `arabicToLatin` transliteration table together with the `'?'`
default (`arabicToLatin[char] || '?'`), applied to a character outside
`[ -~]`; characters inside that range are kept. -/
def translitChar (c : Char) : List Char :=
  if asciiPrintable c then [c]
  else
    match c with
    | 'ا' => ['A'] | 'ب' => ['B'] | 'ت' => ['T'] | 'ث' => ['T', 'H'] | 'ج' => ['J']
    | 'ح' => ['H'] | 'خ' => ['K', 'H'] | 'د' => ['D'] | 'ذ' => ['D', 'H'] | 'ر' => ['R']
    | 'ز' => ['Z'] | 'س' => ['S'] | 'ش' => ['S', 'H'] | 'ص' => ['S'] | 'ض' => ['D']
    | 'ط' => ['T'] | 'ظ' => ['Z'] | 'ع' => ['A'] | 'غ' => ['G', 'H'] | 'ف' => ['F']
    | 'ق' => ['Q'] | 'ك' => ['K'] | 'ل' => ['L'] | 'م' => ['M'] | 'ن' => ['N']
    | 'ة' => ['T'] | 'ـ' => ['-']
    | 'ه' => ['H'] | 'و' => ['W'] | 'ي' => ['Y'] | 'ى' => ['A'] | 'ئ' => ['A']
    | 'ء' => ['A'] | 'إ' => ['E']
    | _ => ['?']

/-- `processText` in the `useUnicode = false` branch (the only reachable one:
both the `try` and the `catch` set `useUnicode = false`): every character
outside `[ -~]` is replaced via `translitChar`.  An empty string is
returned unchanged, as by the `if (!text) return text` guard. -/
def processText (s : String) : String :=
  String.mk ((s.data.map translitChar).flatten)

/-- The character class `\s` of the JavaScript regexp used in
`split(/\s+/)`. -/
def isJsWhitespace (c : Char) : Bool :=
  (0x09 ≤ c.toNat && c.toNat ≤ 0x0D) || c.toNat = 0x20 || c.toNat = 0xA0 ||
    c.toNat = 0x1680 || (0x2000 ≤ c.toNat && c.toNat ≤ 0x200A) ||
    c.toNat = 0x2028 || c.toNat = 0x2029 || c.toNat = 0x202F ||
    c.toNat = 0x205F || c.toNat = 0x3000 || c.toNat = 0xFEFF

/-- Worker loop of `String(processedText).split(/\s+/)`: `cur` is the word
being accumulated (reversed), `skipping` is true while inside a whitespace
run that has already terminated a word. -/
def splitWsGo : List Char → List Char → Bool → List String
  | [], cur, _ => [String.mk cur.reverse]
  | c :: cs, cur, skipping =>
    if isJsWhitespace c then
      if skipping then splitWsGo cs cur true
      else String.mk cur.reverse :: splitWsGo cs [] true
    else splitWsGo cs (c :: cur) false

/-- `String(processedText).split(/\s+/)` with JavaScript semantics: the
string is cut at maximal whitespace runs; leading or trailing whitespace
contributes an empty token, and the empty string yields `[""]`. -/
def splitWs (s : String) : List String :=
  splitWsGo s.data [] false

/-- The local `textWidth` of `wrapText`: the collaborator measurement
(`meas`, `none` when `widthOfTextAtSize` throws) with the deterministic
estimate `t.length * size * 0.6` as fallback. -/
def textWidth (meas : String → Option ℚ) (size : ℚ) (t : String) : ℚ :=
  match meas t with
  | some w => w
  | none => (t.data.length : ℚ) * size * (3 / 5)

/-- The character-by-character hard split of an over-wide word
(`for (const ch of w) ...` inside `wrapText`): returns the emitted lines
and the final `chunk`, which becomes the new `current`. -/
def hardSplitGo (tw : String → ℚ) (maxW : ℚ) : List Char → String → List String × String
  | [], chunk => ([], chunk)
  | c :: cs, chunk =>
    let attemptChunk := chunk.push c
    if tw attemptChunk ≤ maxW then hardSplitGo tw maxW cs attemptChunk
    else
      let rest := hardSplitGo tw maxW cs (String.singleton c)
      ((if chunk = "" then rest.1 else chunk :: rest.1), rest.2)

/-- The word loop of `wrapText` (`for (const w of words) ...` followed by the
final `if (current) lines.push(current)`). -/
def wrapGo (tw : String → ℚ) (maxW : ℚ) : List String → String → List String
  | [], current => if current = "" then [] else [current]
  | w :: ws, current =>
    let attempt := if current = "" then w else current ++ " " ++ w
    if tw attempt ≤ maxW then wrapGo tw maxW ws attempt
    else
      (if current = "" then [] else [current]) ++
        (let hs := hardSplitGo tw maxW w.data ""
         hs.1 ++ wrapGo tw maxW ws hs.2)

/-- `wrapText(text, maxWidth, fnt, size)`: the font argument is folded into
the measurement oracle `meas`. -/
def wrapText (meas : String → Option ℚ) (text : String) (maxWidth : ℚ) (size : ℚ) :
    List String :=
  wrapGo (textWidth meas size) maxWidth (splitWs (processText text)) ""

/-- The measurement oracle describing a font whose `widthOfTextAtSize`
always throws, so that `wrapText` always uses its deterministic estimate. -/
def estimateOnly : String → Option ℚ := fun _ => none

/-- One call to the collaborator's `page.drawText` that succeeded: the page
it went to (pages are numbered from 1 in allocation order), the string
actually handed to the collaborator, and the absolute position/size. -/
structure DrawnLine where
  page : ℕ
  text : String
  x : ℚ
  y : ℚ
  size : ℚ
deriving DecidableEq

/-- Observable record of one call to a drawing helper, with its raw string
argument (before any processing done inside the helper). -/
inductive Call where
  | title (s : String)
  | header (s : String)
  | wrapped (s : String)
deriving DecidableEq

/-- The worker's per-request layout state: the mutable `page`/`y` pair plus
the pages created so far (as a count), all successful `drawText` calls, and
the log of helper invocations. -/
structure LayoutState where
  pages : ℕ
  y : ℚ
  drawn : List DrawnLine
  calls : List Call
deriving DecidableEq

/-- State right after `pdfDoc.addPage()` and `let y = height - margin`. -/
def initState : LayoutState :=
  { pages := 1, y := height - margin, drawn := [], calls := [] }

/-- `const newPage = () => { page = pdfDoc.addPage([width, height]); paintWhite(page); y = height - margin; }`. -/
def newPage (st : LayoutState) : LayoutState :=
  { st with pages := st.pages + 1, y := height - margin }

/-- `const ensureSpace = (needed = lineHeight) => { if (y - needed < margin) newPage(); }`. -/
def ensureSpace (needed : ℚ) (st : LayoutState) : LayoutState :=
  if st.y - needed < margin then newPage st else st

/-- `y -= dy` between draw operations. -/
def decY (dy : ℚ) (st : LayoutState) : LayoutState :=
  { st with y := st.y - dy }

/-- Record a successful `page.drawText(t, {x, y, size, ...})` on the current
page at the current cursor. -/
def pushDrawn (t : String) (x sz : ℚ) (st : LayoutState) : LayoutState :=
  { st with drawn := st.drawn ++ [⟨st.pages, t, x, st.y, sz⟩] }

/-- Append a helper invocation to the observable call log. -/
def logCall (c : Call) (st : LayoutState) : LayoutState :=
  { st with calls := st.calls ++ [c] }

/-- `line.replace(/[^ -~]/g, '?')`: the glyph fallback applied
when a draw throws. -/
def asciiFallback (s : String) : String :=
  String.mk (s.data.map (fun c => if asciiPrintable c then c else '?'))

/-- One attempted `page.drawText`: fails (throws) exactly when the failure
predicate `fails` holds of the string. -/
def drawTextTry (fails : String → Bool) (t : String) (x sz : ℚ) (st : LayoutState) :
    Except String LayoutState :=
  if fails t then Except.error "WinAnsi cannot encode" else Except.ok (pushDrawn t x sz st)

/-- The per-line body of `drawWrapped`: `ensureSpace(lineHeight)`, a `try`
draw of the line, on failure one retry with the `'?'` fallback (a second
failure propagates), then `y -= lineHeight`. -/
def drawLine (fails : String → Bool) (line : String) (x sz : ℚ) (st : LayoutState) :
    Except String LayoutState :=
  match drawTextTry fails line x sz (ensureSpace lineHeight st) with
  | Except.ok st1 => Except.ok (decY lineHeight st1)
  | Except.error _ =>
    match drawTextTry fails (asciiFallback line) x sz (ensureSpace lineHeight st) with
    | Except.ok st1 => Except.ok (decY lineHeight st1)
    | Except.error e => Except.error e

/-- `for (const line of lines) ...` of `drawWrapped`. -/
def drawLines (fails : String → Bool) (x sz : ℚ) :
    List String → LayoutState → Except String LayoutState
  | [], st => Except.ok st
  | l :: ls, st =>
    match drawLine fails l x sz st with
    | Except.ok st1 => drawLines fails x sz ls st1
    | Except.error e => Except.error e

/-- `drawWrapped(text, x, maxWidth, size, fnt)`; the call log records the
raw `text` argument. -/
def drawWrapped (fails : String → Bool) (meas : String → Option ℚ) (text : String)
    (x maxW sz : ℚ) (st : LayoutState) : Except String LayoutState :=
  drawLines fails x sz (wrapText meas text maxW sz) (logCall (Call.wrapped text) st)

/-- `drawTitle(text)`: reserve `lineHeight * 2`, draw `processText(text)` in
the title size at the left margin with one `'?'`-fallback retry, then
`y -= lineHeight * 2`. -/
def drawTitle (fails : String → Bool) (text : String) (st : LayoutState) :
    Except String LayoutState :=
  let st1 := ensureSpace (lineHeight * 2) (logCall (Call.title text) st)
  match drawTextTry fails (processText text) margin titleSize st1 with
  | Except.ok st2 => Except.ok (decY (lineHeight * 2) st2)
  | Except.error _ =>
    match drawTextTry fails (asciiFallback (processText text)) margin titleSize st1 with
    | Except.ok st2 => Except.ok (decY (lineHeight * 2) st2)
    | Except.error e => Except.error e

/-- `drawSectionHeader(text)`: reserve `lineHeight * 2`, draw
`processText(text)` in the section-header size with one fallback retry,
then `y -= lineHeight * 1.5`. -/
def drawSectionHeader (fails : String → Bool) (text : String) (st : LayoutState) :
    Except String LayoutState :=
  let st1 := ensureSpace (lineHeight * 2) (logCall (Call.header text) st)
  match drawTextTry fails (processText text) margin sectionHeaderSize st1 with
  | Except.ok st2 => Except.ok (decY (lineHeight * (3 / 2)) st2)
  | Except.error _ =>
    match drawTextTry fails (asciiFallback (processText text)) margin sectionHeaderSize st1 with
    | Except.ok st2 => Except.ok (decY (lineHeight * (3 / 2)) st2)
    | Except.error e => Except.error e

/-- `url.searchParams.get(k)`: the value of the first entry with key `k`,
or `null` (`none`) if absent. -/
def getParam (ps : List (String × String)) (k : String) : Option String :=
  (ps.find? (fun p => p.1 == k)).map Prod.snd

/-- `url.searchParams.has(k)`. -/
def hasParam (ps : List (String × String)) (k : String) : Bool :=
  ps.any (fun p => p.1 == k)

/-- `const titleParam = url.searchParams.get("title") || "PDF"`: the `||`
default also replaces an empty (falsy) string. -/
def titleParam (ps : List (String × String)) : String :=
  match getParam ps "title" with
  | none => "PDF"
  | some v => if v = "" then "PDF" else v

/-- `const textParam = url.searchParams.get("text")`. -/
def textParam (ps : List (String × String)) : Option String :=
  getParam ps "text"

/-- `params.filter(([k]) => k !== "title" && k !== "text").slice(0, MAX_PARAMS)`. -/
def extraParams (ps : List (String × String)) : List (String × String) :=
  (ps.filter (fun p => !(p.1 == "title") && !(p.1 == "text"))).take MAX_PARAMS

/-- `params.length - (has("title") ? 1 : 0) - (has("text") ? 1 : 0)`, the
count the code compares against `MAX_PARAMS` before emitting the note line. -/
def overflowCount (ps : List (String × String)) : ℕ :=
  ps.length - (if hasParam ps "title" then 1 else 0) - (if hasParam ps "text" then 1 else 0)

/-- `.slice(0, MAX_VALUE_LEN)` on a string value. -/
def take500 (s : String) : String :=
  String.mk (s.data.take MAX_VALUE_LEN)

/-- `` `${key} = ${val}` `` with `val = (rawVal ?? "").slice(0, MAX_VALUE_LEN)`
(query entries always carry a string value, so `?? ""` is the identity). -/
def paramLine (p : String × String) : String :=
  p.1 ++ " = " ++ take500 p.2

/-- The note drawn when the reserved-adjusted parameter count exceeds
`MAX_PARAMS`. -/
def extraNote : String :=
  "Note: Showing first 50 parameters (excluding title/text)."

/-- The echo-mode disclaimer in the reachable `useUnicode = false` variant. -/
def echoDisclaimer : String :=
  "Unicode characters are transliterated. Content is rendered from URL parameters."

/-- Title of the instructions page. -/
def instrTitle : String := "PDF Generator with Unicode Support"

/-- Paragraph of the instructions "Purpose" section. -/
def purposeText : String :=
  "This service provides a PDF file that can handle Unicode characters including Arabic text. " ++
    "Text is customized using URL parameters."

/-- List lines of the instructions "Use Cases" section. -/
def useCasesLines : List String :=
  ["- Generate PDFs with multilingual content",
   "- Support Arabic, Hebrew, and other RTL languages",
   "- Echo URL parameters as text with Unicode support",
   "- Test international character handling"]

/-- `const exampleQuery = "?title=...&text=..."` of the instructions page. -/
def exampleQuery : String :=
  "?title=مرحبا&text=This%20is%20Arabic:%20السلام%20عليكم"

/-- `url.origin.replace(/\/$/, "")`. -/
def stripTrailingSlash (s : String) : String :=
  if s.data.getLast? = some '/' then String.mk s.data.dropLast else s

/-- `` `${origin}${url.pathname}${exampleQuery}` ``. -/
def exampleLine (origin pathname : String) : String :=
  stripTrailingSlash origin ++ pathname ++ exampleQuery

/-- List lines of the instructions "Notes" section (`useUnicode` is false). -/
def notesLines : List String :=
  ["- Each value is limited to 500 characters.",
   "- Up to 50 URL parameters are rendered.",
   "- Unicode characters are transliterated to Latin equivalents",
   "- RTL languages may not render in proper direction without additional setup"]

/-- Disclaimer paragraph of the instructions page. -/
def instrDisclaimer : String :=
  "This PDF file is for testing purposes. Content is rendered directly from URL parameters."

/-- `lines.forEach((line) => drawWrapped(line, margin, maxTextWidth))`. -/
def drawEach (fails : String → Bool) (meas : String → Option ℚ) :
    List String → LayoutState → Except String LayoutState
  | [], st => Except.ok st
  | t :: ts, st =>
    match drawWrapped fails meas t margin maxTextWidth bodySize st with
    | Except.ok st1 => drawEach fails meas ts st1
    | Except.error e => Except.error e

/-- The instructions branch (`params.length === 0`) of the handler. -/
def instructionsFlow (fails : String → Bool) (meas : String → Option ℚ)
    (origin pathname : String) (st : LayoutState) : Except String LayoutState :=
  match drawTitle fails instrTitle st with
  | Except.error e => Except.error e
  | Except.ok st1 =>
    match drawSectionHeader fails "Purpose" st1 with
    | Except.error e => Except.error e
    | Except.ok st2 =>
      match drawWrapped fails meas purposeText margin maxTextWidth bodySize st2 with
      | Except.error e => Except.error e
      | Except.ok st3 =>
        match drawSectionHeader fails "Use Cases" (decY lineHeight st3) with
        | Except.error e => Except.error e
        | Except.ok st4 =>
          match drawEach fails meas useCasesLines st4 with
          | Except.error e => Except.error e
          | Except.ok st5 =>
            match drawSectionHeader fails "Example Usage" (decY lineHeight st5) with
            | Except.error e => Except.error e
            | Except.ok st6 =>
              match drawWrapped fails meas (exampleLine origin pathname) margin maxTextWidth bodySize st6 with
              | Except.error e => Except.error e
              | Except.ok st7 =>
                match drawSectionHeader fails "Notes" (decY (lineHeight * 2) st7) with
                | Except.error e => Except.error e
                | Except.ok st8 =>
                  match drawEach fails meas notesLines st8 with
                  | Except.error e => Except.error e
                  | Except.ok st9 =>
                    match drawSectionHeader fails "Disclaimer" (decY lineHeight st9) with
                    | Except.error e => Except.error e
                    | Except.ok st10 =>
                      drawWrapped fails meas instrDisclaimer margin maxTextWidth bodySize st10

/-- `if (textParam) { drawWrapped(String(textParam).slice(0, MAX_VALUE_LEN), ...); y -= lineHeight; }`. -/
def echoTextStage (fails : String → Bool) (meas : String → Option ℚ)
    (ps : List (String × String)) (st : LayoutState) : Except String LayoutState :=
  match textParam ps with
  | none => Except.ok st
  | some v =>
    if v = "" then Except.ok st
    else
      match drawWrapped fails meas (take500 v) margin maxTextWidth bodySize st with
      | Except.ok st1 => Except.ok (decY lineHeight st1)
      | Except.error e => Except.error e

/-- `for (const [key, rawVal] of extraParams) drawWrapped(...)`. -/
def drawParamLines (fails : String → Bool) (meas : String → Option ℚ) :
    List (String × String) → LayoutState → Except String LayoutState
  | [], st => Except.ok st
  | p :: rest, st =>
    match drawWrapped fails meas (paramLine p) margin maxTextWidth bodySize st with
    | Except.ok st1 => drawParamLines fails meas rest st1
    | Except.error e => Except.error e

/-- The `if (extraParams.length > 0) { ... }` block: section header, the
conditional note line (with its `y -= lineHeight`), one wrapped line per
retained parameter, and the closing `y -= lineHeight`. -/
def echoExtraStage (fails : String → Bool) (meas : String → Option ℚ)
    (ps : List (String × String)) (st : LayoutState) : Except String LayoutState :=
  if (extraParams ps).length > 0 then
    match drawSectionHeader fails "Extra information" st with
    | Except.error e => Except.error e
    | Except.ok st1 =>
      let afterNote : Except String LayoutState :=
        if overflowCount ps > MAX_PARAMS then
          match drawWrapped fails meas extraNote margin maxTextWidth bodySize st1 with
          | Except.ok st2 => Except.ok (decY lineHeight st2)
          | Except.error e => Except.error e
        else Except.ok st1
      match afterNote with
      | Except.error e => Except.error e
      | Except.ok st2 =>
        match drawParamLines fails meas (extraParams ps) st2 with
        | Except.ok st3 => Except.ok (decY lineHeight st3)
        | Except.error e => Except.error e
  else Except.ok st

/-- Echo branch up to (and including) the "Extra information" block; its
result is the state at the point right before the Disclaimer header. -/
def echoThroughExtra (fails : String → Bool) (meas : String → Option ℚ)
    (ps : List (String × String)) (st : LayoutState) : Except String LayoutState :=
  match drawTitle fails (titleParam ps) st with
  | Except.error e => Except.error e
  | Except.ok st1 =>
    match echoTextStage fails meas ps st1 with
    | Except.error e => Except.error e
    | Except.ok st2 => echoExtraStage fails meas ps st2

/-- The echo branch (`params.length >= 1`) of the handler. -/
def echoFlow (fails : String → Bool) (meas : String → Option ℚ)
    (ps : List (String × String)) (st : LayoutState) : Except String LayoutState :=
  match echoThroughExtra fails meas ps st with
  | Except.error e => Except.error e
  | Except.ok st1 =>
    match drawSectionHeader fails "Disclaimer" st1 with
    | Except.error e => Except.error e
    | Except.ok st2 =>
      drawWrapped fails meas echoDisclaimer margin maxTextWidth bodySize st2

/-- Whole PDF construction for one request: the branch on
`params.length === 0` and everything inside the outer `try`. -/
def buildPdf (fails : String → Bool) (meas : String → Option ℚ)
    (origin pathname : String) (ps : List (String × String)) :
    Except String LayoutState :=
  if ps.length = 0 then instructionsFlow fails meas origin pathname initState
  else echoFlow fails meas ps initState

/-- Body of the worker's HTTP response. -/
inductive ResponseBody where
  | pdfBytes (st : LayoutState)
  | errorText (s : String)
deriving DecidableEq

/-- The worker's HTTP response: status, the two headers it may set, body. -/
structure HttpResponse where
  status : ℕ
  contentType : Option String
  contentDisposition : Option String
  body : ResponseBody
deriving DecidableEq

/-- The outer `try`/`catch` of `fetch`: a successful construction returns
the PDF bytes with status 200 and the two headers, a thrown error returns
status 500 with the diagnostic text. -/
def fetchHandler (fails : String → Bool) (meas : String → Option ℚ)
    (origin pathname : String) (ps : List (String × String)) : HttpResponse :=
  match buildPdf fails meas origin pathname ps with
  | Except.ok st =>
    { status := 200, contentType := some "application/pdf",
      contentDisposition := some "inline; filename=\"pdfthis.pdf\"",
      body := ResponseBody.pdfBytes st }
  | Except.error e =>
    { status := 500, contentType := none, contentDisposition := none,
      body := ResponseBody.errorText ("Failed to generate PDF: " ++ e) }

/-- A font/draw collaborator that never throws while drawing. -/
def noDrawFailure : String → Bool := fun _ => false

/-- The final state of a construction, `initState` when it failed. -/
def resultState (r : Except String LayoutState) : LayoutState :=
  match r with
  | Except.ok st => st
  | Except.error _ => initState

/-- The page count of a successful construction, `0` when it failed. -/
def resultPages (r : Except String LayoutState) : ℕ :=
  match r with
  | Except.ok st => st.pages
  | Except.error _ => 0

lemma data_push (s : String) (c : Char) : (s.push c).data = s.data ++ [c] := by
  cases s; rfl

lemma data_append (s t : String) : (s ++ t).data = s.data ++ t.data := by
  cases s; cases t; rfl

lemma data_singleton (c : Char) : (String.singleton c).data = [c] := rfl

/-- Invariant of the hard-split loop: if the incoming `chunk` is empty,
fits, or is a single character, then every emitted line fits or is a single
character, and so does the final `chunk` unless it is empty. -/
lemma hardSplitGo_inv (tw : String → ℚ) (maxW : ℚ) :
    ∀ (cs : List Char) (chunk : String),
      chunk = "" ∨ tw chunk ≤ maxW ∨ chunk.data.length = 1 →
      (∀ l ∈ (hardSplitGo tw maxW cs chunk).1, tw l ≤ maxW ∨ l.data.length = 1) ∧
        ((hardSplitGo tw maxW cs chunk).2 = "" ∨ tw (hardSplitGo tw maxW cs chunk).2 ≤ maxW ∨
          (hardSplitGo tw maxW cs chunk).2.data.length = 1) := by
  intro cs
  induction cs with
  | nil =>
    intro chunk h
    exact ⟨by simp [hardSplitGo], h⟩
  | cons c cs ih =>
    intro chunk h
    simp only [hardSplitGo]
    split
    · exact ih (chunk.push c) (Or.inr (Or.inl (by assumption)))
    · have hsing : (String.singleton c) = "" ∨ tw (String.singleton c) ≤ maxW ∨
          (String.singleton c).data.length = 1 := Or.inr (Or.inr rfl)
      rcases ih (String.singleton c) hsing with ⟨h1, h2⟩
      refine ⟨?_, h2⟩
      intro l hl
      by_cases hch : chunk = ""
      · rw [if_pos hch] at hl
        exact h1 l hl
      · rw [if_neg hch] at hl
        rcases List.mem_cons.mp hl with hl | hl
        · subst hl
          rcases h with h | h
          · exact absurd h hch
          · exact h
        · exact h1 l hl

/-- Invariant of the word loop: if the accumulated `current` is empty, fits,
or is a single character, every line the loop emits fits or is a single
character. -/
lemma wrapGo_inv (tw : String → ℚ) (maxW : ℚ) :
    ∀ (ws : List String) (current : String),
      current = "" ∨ tw current ≤ maxW ∨ current.data.length = 1 →
      ∀ l ∈ wrapGo tw maxW ws current, tw l ≤ maxW ∨ l.data.length = 1 := by
  intro ws
  induction ws with
  | nil =>
    intro current h l hl
    simp only [wrapGo] at hl
    by_cases hc : current = ""
    · rw [if_pos hc] at hl
      exact absurd hl (List.not_mem_nil l)
    · rw [if_neg hc] at hl
      rcases List.mem_singleton.mp hl with rfl
      rcases h with h | h
      · exact absurd h hc
      · exact h
  | cons w ws ih =>
    intro current h l hl
    simp only [wrapGo] at hl
    by_cases hc : current = ""
    · rw [if_pos hc, if_pos hc] at hl
      by_cases hw : tw w ≤ maxW
      · rw [if_pos hw] at hl
        exact ih w (Or.inr (Or.inl hw)) l hl
      · rw [if_neg hw, List.nil_append] at hl
        rcases List.mem_append.mp hl with hl | hl
        · exact (hardSplitGo_inv tw maxW w.data "" (Or.inl rfl)).1 l hl
        · exact ih _ (hardSplitGo_inv tw maxW w.data "" (Or.inl rfl)).2 l hl
    · rw [if_neg hc, if_neg hc] at hl
      by_cases hw : tw (current ++ " " ++ w) ≤ maxW
      · rw [if_pos hw] at hl
        exact ih _ (Or.inr (Or.inl hw)) l hl
      · rw [if_neg hw] at hl
        rcases List.mem_append.mp hl with hl | hl
        · rcases List.mem_singleton.mp hl with rfl
          rcases h with h | h
          · exact absurd h hc
          · exact h
        · rcases List.mem_append.mp hl with hl | hl
          · exact (hardSplitGo_inv tw maxW w.data "" (Or.inl rfl)).1 l hl
          · exact ih _ (hardSplitGo_inv tw maxW w.data "" (Or.inl rfl)).2 l hl

/-- C1 (amended).  For every input string, maximum width, measurement
oracle (font) and size, every line emitted by `wrapText` either has
measured width (by the same `textWidth` used while wrapping) at most the
maximum width, or consists of a single character — a single character whose
own measured width exceeds the maximum width is emitted as an over-wide
line by the hard split. -/
theorem wrapText_lines_fit_or_single (meas : String → Option ℚ) (text : String)
    (maxWidth size : ℚ) :
    ∀ l ∈ wrapText meas text maxWidth size,
      textWidth meas size l ≤ maxWidth ∨ l.data.length = 1 := by
  intro l hl
  exact wrapGo_inv (textWidth meas size) maxWidth _ "" (Or.inl rfl) l hl

/-- Witness for C1's amended theorem at a concrete input. -/
theorem wrapText_lines_fit_or_single_witness :
    textWidth estimateOnly 12 "hi" ≤ 512 ∨ ("hi" : String).data.length = 1 :=
  wrapText_lines_fit_or_single estimateOnly "hi" 512 12 "hi"
    (by with_unfolding_all decide)

/-- Counterexample to C1 as stated: with the code's own fallback width
estimate (`0.6 * size` per character) and a maximum width of `5`, the word
`"ab"` is hard-split into the lines `"a"` and `"b"`, and the emitted line
`"a"` measures `7.2 > 5`. -/
theorem wrapText_overwide_char_cex :
    wrapText estimateOnly "ab" 5 12 = ["a", "b"] ∧
      "a" ∈ wrapText estimateOnly "ab" 5 12 ∧
      ¬ textWidth estimateOnly 12 "a" ≤ 5 := by
  refine ⟨?_, ?_, ?_⟩ <;> with_unfolding_all decide

/-- Join a word list with single spaces: the string a run of the word loop
accumulates in `current` when every attempt fits. -/
def joinSp : List String → String
  | [] => ""
  | [w] => w
  | w :: ws => w ++ " " ++ joinSp ws

lemma textWidth_estimateOnly (size : ℚ) (t : String) :
    textWidth estimateOnly size t = (t.data.length : ℚ) * size * (3 / 5) := rfl

lemma textWidth_est_mono {size : ℚ} (hsz : 0 ≤ size) {s t : String}
    (h : s.data.length ≤ t.data.length) :
    textWidth estimateOnly size s ≤ textWidth estimateOnly size t := by
  rw [textWidth_estimateOnly, textWidth_estimateOnly]
  have h1 : (s.data.length : ℚ) ≤ (t.data.length : ℚ) := by exact_mod_cast h
  have h2 : (s.data.length : ℚ) * size ≤ (t.data.length : ℚ) * size :=
    mul_le_mul_of_nonneg_right h1 hsz
  exact mul_le_mul_of_nonneg_right h2 (by norm_num)

lemma len_le_joinSp_cons (w : String) (ws : List String) :
    w.data.length ≤ (joinSp (w :: ws)).data.length := by
  cases ws with
  | nil => exact Nat.le.refl
  | cons v vs =>
    show w.data.length ≤ (w ++ " " ++ joinSp (v :: vs)).data.length
    rw [String.data_append, String.data_append]
    simp

lemma joinSp_merge (c w : String) (ws : List String) :
    joinSp ((c ++ " " ++ w) :: ws) = joinSp (c :: w :: ws) := by
  cases ws with
  | nil => rfl
  | cons v vs =>
    show (c ++ " " ++ w) ++ " " ++ joinSp (v :: vs) = c ++ " " ++ (w ++ " " ++ joinSp (v :: vs))
    simp only [String.append_assoc]

lemma append_sp_ne_empty (c w : String) : c ++ " " ++ w ≠ "" := by
  intro h
  have hd := congrArg String.data h
  rw [String.data_append, String.data_append] at hd
  simp at hd

/-- If every word attempt fits under the estimate measure, the word loop
accumulates all remaining words into a single line. -/
lemma wrapGo_single_line (size maxW : ℚ) (hsz : 0 ≤ size) :
    ∀ (ws : List String) (c : String), c ≠ "" →
      textWidth estimateOnly size (joinSp (c :: ws)) ≤ maxW →
      wrapGo (textWidth estimateOnly size) maxW ws c = [joinSp (c :: ws)] := by
  intro ws
  induction ws with
  | nil =>
    intro c hc _
    show (if c = "" then [] else [c]) = [joinSp [c]]
    rw [if_neg hc]
    rfl
  | cons w ws ih =>
    intro c hc hfit
    have hattlen : (c ++ " " ++ w).data.length ≤ (joinSp (c :: w :: ws)).data.length := by
      show _ ≤ (c ++ " " ++ joinSp (w :: ws)).data.length
      rw [String.data_append, String.data_append, String.data_append, String.data_append]
      have := len_le_joinSp_cons w ws
      simp only [List.length_append]
      omega
    have hattfit : textWidth estimateOnly size (c ++ " " ++ w) ≤ maxW :=
      le_trans (textWidth_est_mono hsz hattlen) hfit
    show wrapGo (textWidth estimateOnly size) maxW (w :: ws) c = [joinSp (c :: w :: ws)]
    simp only [wrapGo]
    rw [if_neg hc, if_neg hc, if_pos hattfit]
    rw [ih (c ++ " " ++ w) (append_sp_ne_empty c w) (by rw [joinSp_merge]; exact hfit)]
    rw [joinSp_merge]

lemma splitWsGo_ne_nil : ∀ (l : List Char) (cur : List Char) (skipping : Bool),
    splitWsGo l cur skipping ≠ [] := by
  intro l
  induction l with
  | nil => intro cur skipping; simp [splitWsGo]
  | cons c cs ih =>
    intro cur skipping
    simp only [splitWsGo]
    by_cases hw : isJsWhitespace c
    · rw [if_pos hw]
      cases skipping with
      | true => rw [if_pos rfl]; exact ih cur true
      | false => rw [if_neg (by simp)]; simp
    · rw [if_neg hw]; exact ih (c :: cur) false

lemma splitWs_ne_nil (s : String) : splitWs s ≠ [] :=
  splitWsGo_ne_nil s.data [] false

/-- C4 (amended).  If the processed text is in canonical single-space form
(its whitespace-split words are nonempty and joining them with single
spaces gives the string back) and its measured width under the code's
deterministic estimate fits the maximum width, then `wrapText` yields
exactly one line: the processed input itself. -/
theorem wrapText_single_line_of_fits (text : String) (maxW size : ℚ)
    (hsz : 0 ≤ size)
    (hne : "" ∉ splitWs (processText text))
    (hcanon : joinSp (splitWs (processText text)) = processText text)
    (hfit : textWidth estimateOnly size (processText text) ≤ maxW) :
    wrapText estimateOnly text maxW size = [processText text] := by
  obtain ⟨w1, rest, hw⟩ : ∃ w1 rest, splitWs (processText text) = w1 :: rest := by
    cases h : splitWs (processText text) with
    | nil => exact absurd h (splitWs_ne_nil _)
    | cons a l => exact ⟨a, l, rfl⟩
  have hw1ne : w1 ≠ "" := fun h => hne (h ▸ hw ▸ List.mem_cons_self w1 rest)
  have hjoin : joinSp (w1 :: rest) = processText text := hw ▸ hcanon
  have hfit1 : textWidth estimateOnly size w1 ≤ maxW :=
    le_trans (textWidth_est_mono hsz (hjoin ▸ len_le_joinSp_cons w1 rest)) hfit
  unfold wrapText
  rw [hw]
  simp only [wrapGo]
  rw [if_pos trivial, if_pos trivial, if_pos hfit1]
  rw [wrapGo_single_line size maxW hsz rest w1 hw1ne (hjoin ▸ hfit)]
  rw [hjoin]

/-- Witness for C4's amended theorem at a concrete input. -/
theorem wrapText_single_line_of_fits_witness :
    wrapText estimateOnly "hello world" 512 12 = [processText "hello world"] :=
  wrapText_single_line_of_fits "hello world" 512 12 (by norm_num)
    (by decide) (by decide) (by with_unfolding_all decide)

/-- Counterexample to C4 as stated: `"a  b"` (double space) fits the column
width under the code's own fallback estimate and is unchanged by
transliteration, yet `wrapText` returns `["a b"]`, which is not the input
(nor its transliteration): interior whitespace runs are collapsed. -/
theorem wrapText_not_id_cex :
    processText "a  b" = "a  b" ∧
      textWidth estimateOnly 12 (processText "a  b") ≤ maxTextWidth ∧
      wrapText estimateOnly "a  b" maxTextWidth 12 = ["a b"] ∧
      ("a b" : String) ≠ "a  b" := by
  refine ⟨?_, ?_, ?_, ?_⟩ <;> with_unfolding_all decide

/-- A drawn line sits between the bottom and the top margin. -/
def goodLine (d : DrawnLine) : Prop :=
  margin ≤ d.y ∧ d.y ≤ height - margin

/-- Layout invariant maintained by every drawing operation: all successful
draws so far happened inside the vertical margins, and the cursor never
exceeds the top margin. -/
def Inv (st : LayoutState) : Prop :=
  (∀ d ∈ st.drawn, goodLine d) ∧ st.y ≤ height - margin

lemma inv_initState : Inv initState := by
  constructor
  · intro d hd; exact absurd hd (List.not_mem_nil d)
  · exact le_refl _

lemma ensureSpace_drawn (n : ℚ) (st : LayoutState) :
    (ensureSpace n st).drawn = st.drawn := by
  unfold ensureSpace newPage; split <;> rfl

lemma ensureSpace_calls (n : ℚ) (st : LayoutState) :
    (ensureSpace n st).calls = st.calls := by
  unfold ensureSpace newPage; split <;> rfl

lemma ensureSpace_y_le (n : ℚ) (st : LayoutState) (h : st.y ≤ height - margin) :
    (ensureSpace n st).y ≤ height - margin := by
  unfold ensureSpace newPage; split
  · exact le_refl _
  · exact h

/-- After `ensureSpace n` the cursor leaves at least `n` of room above the
bottom margin, provided `n` fits in a fresh page's usable height. -/
lemma ensureSpace_lower (n : ℚ) (st : LayoutState) (hn : n ≤ height - 2 * margin) :
    margin + n ≤ (ensureSpace n st).y := by
  unfold ensureSpace newPage
  split
  · show margin + n ≤ height - margin
    unfold margin height at *
    linarith
  · rename_i hlt
    rw [not_lt] at hlt
    linarith

lemma inv_ensureSpace (n : ℚ) (st : LayoutState) (h : Inv st) : Inv (ensureSpace n st) := by
  refine ⟨?_, ensureSpace_y_le n st h.2⟩
  rw [ensureSpace_drawn]
  exact h.1

lemma inv_decY (dy : ℚ) (st : LayoutState) (hdy : 0 ≤ dy) (h : Inv st) : Inv (decY dy st) := by
  refine ⟨h.1, ?_⟩
  show st.y - dy ≤ height - margin
  have := h.2
  linarith

lemma inv_pushDrawn (t : String) (x sz : ℚ) (st : LayoutState) (h : Inv st)
    (hy : margin ≤ st.y) : Inv (pushDrawn t x sz st) := by
  refine ⟨?_, h.2⟩
  intro d hd
  rcases List.mem_append.mp hd with hd | hd
  · exact h.1 d hd
  · rcases List.mem_singleton.mp hd with rfl
    exact ⟨hy, h.2⟩

lemma inv_logCall (c : Call) (st : LayoutState) (h : Inv st) : Inv (logCall c st) := h

/-- The common shape of one successful guarded draw: `ensureSpace n`, draw
some string at the current cursor, then `y -= d`.  It preserves the layout
invariant whenever the reservation `n` fits a fresh page and `0 ≤ d`. -/
lemma inv_drawStep (s : String) (x sz n d : ℚ) (st : LayoutState)
    (hn0 : 0 ≤ n) (hn : n ≤ height - 2 * margin) (hd : 0 ≤ d) (h : Inv st) :
    Inv (decY d (pushDrawn s x sz (ensureSpace n st))) := by
  have h1 : Inv (ensureSpace n st) := inv_ensureSpace n st h
  have hy : margin ≤ (ensureSpace n st).y := by
    have := ensureSpace_lower n st hn
    linarith
  exact inv_decY d _ hd (inv_pushDrawn s x sz _ h1 hy)

lemma drawTextTry_ok_iff (fails : String → Bool) (t : String) (x sz : ℚ)
    (st st2 : LayoutState) :
    drawTextTry fails t x sz st = Except.ok st2 ↔
      fails t = false ∧ st2 = pushDrawn t x sz st := by
  unfold drawTextTry
  by_cases h : fails t
  · simp [h]
  · simp [h]
    exact comm

/-- Canonical form of a successful `drawLine`: either the line itself was
drawn, or it failed and its `'?'` fallback was drawn; in both cases
`ensureSpace lineHeight` ran first and `y -= lineHeight` ran last. -/
lemma drawLine_cases (fails : String → Bool) (line : String) (x sz : ℚ)
    (st st2 : LayoutState) (h : drawLine fails line x sz st = Except.ok st2) :
    (fails line = false ∧
        st2 = decY lineHeight (pushDrawn line x sz (ensureSpace lineHeight st))) ∨
      (fails line = true ∧ fails (asciiFallback line) = false ∧
        st2 = decY lineHeight
          (pushDrawn (asciiFallback line) x sz (ensureSpace lineHeight st))) := by
  unfold drawLine at h
  cases h1 : drawTextTry fails line x sz (ensureSpace lineHeight st) with
  | ok s1 =>
    rw [h1] at h
    rcases (drawTextTry_ok_iff _ _ _ _ _ _).mp h1 with ⟨hf, rfl⟩
    left
    exact ⟨hf, (Except.ok.injEq _ _).mp h.symm⟩
  | error e1 =>
    rw [h1] at h
    have hf1 : fails line = true := by
      unfold drawTextTry at h1
      by_cases hf : fails line
      · exact hf
      · rw [if_neg (by simp [hf])] at h1; cases h1
    cases h2 : drawTextTry fails (asciiFallback line) x sz (ensureSpace lineHeight st) with
    | ok s2 =>
      rw [h2] at h
      rcases (drawTextTry_ok_iff _ _ _ _ _ _).mp h2 with ⟨hf, rfl⟩
      right
      exact ⟨hf1, hf, (Except.ok.injEq _ _).mp h.symm⟩
    | error e2 => rw [h2] at h; cases h

/-- Canonical form of a successful `drawTitle`. -/
lemma drawTitle_cases (fails : String → Bool) (text : String)
    (st st2 : LayoutState) (h : drawTitle fails text st = Except.ok st2) :
    (fails (processText text) = false ∧
        st2 = decY (lineHeight * 2) (pushDrawn (processText text) margin titleSize
          (ensureSpace (lineHeight * 2) (logCall (Call.title text) st)))) ∨
      (fails (processText text) = true ∧ fails (asciiFallback (processText text)) = false ∧
        st2 = decY (lineHeight * 2) (pushDrawn (asciiFallback (processText text)) margin titleSize
          (ensureSpace (lineHeight * 2) (logCall (Call.title text) st)))) := by
  unfold drawTitle at h
  dsimp only at h
  cases h1 : drawTextTry fails (processText text) margin titleSize
      (ensureSpace (lineHeight * 2) (logCall (Call.title text) st)) with
  | ok s1 =>
    rw [h1] at h
    rcases (drawTextTry_ok_iff _ _ _ _ _ _).mp h1 with ⟨hf, rfl⟩
    left
    exact ⟨hf, (Except.ok.injEq _ _).mp h.symm⟩
  | error e1 =>
    rw [h1] at h
    have hf1 : fails (processText text) = true := by
      unfold drawTextTry at h1
      by_cases hf : fails (processText text)
      · exact hf
      · rw [if_neg (by simp [hf])] at h1; cases h1
    cases h2 : drawTextTry fails (asciiFallback (processText text)) margin titleSize
        (ensureSpace (lineHeight * 2) (logCall (Call.title text) st)) with
    | ok s2 =>
      rw [h2] at h
      rcases (drawTextTry_ok_iff _ _ _ _ _ _).mp h2 with ⟨hf, rfl⟩
      right
      exact ⟨hf1, hf, (Except.ok.injEq _ _).mp h.symm⟩
    | error e2 => rw [h2] at h; cases h

/-- Canonical form of a successful `drawSectionHeader`. -/
lemma drawSectionHeader_cases (fails : String → Bool) (text : String)
    (st st2 : LayoutState) (h : drawSectionHeader fails text st = Except.ok st2) :
    (fails (processText text) = false ∧
        st2 = decY (lineHeight * (3 / 2)) (pushDrawn (processText text) margin sectionHeaderSize
          (ensureSpace (lineHeight * 2) (logCall (Call.header text) st)))) ∨
      (fails (processText text) = true ∧ fails (asciiFallback (processText text)) = false ∧
        st2 = decY (lineHeight * (3 / 2)) (pushDrawn (asciiFallback (processText text)) margin
          sectionHeaderSize (ensureSpace (lineHeight * 2) (logCall (Call.header text) st)))) := by
  unfold drawSectionHeader at h
  dsimp only at h
  cases h1 : drawTextTry fails (processText text) margin sectionHeaderSize
      (ensureSpace (lineHeight * 2) (logCall (Call.header text) st)) with
  | ok s1 =>
    rw [h1] at h
    rcases (drawTextTry_ok_iff _ _ _ _ _ _).mp h1 with ⟨hf, rfl⟩
    left
    exact ⟨hf, (Except.ok.injEq _ _).mp h.symm⟩
  | error e1 =>
    rw [h1] at h
    have hf1 : fails (processText text) = true := by
      unfold drawTextTry at h1
      by_cases hf : fails (processText text)
      · exact hf
      · rw [if_neg (by simp [hf])] at h1; cases h1
    cases h2 : drawTextTry fails (asciiFallback (processText text)) margin sectionHeaderSize
        (ensureSpace (lineHeight * 2) (logCall (Call.header text) st)) with
    | ok s2 =>
      rw [h2] at h
      rcases (drawTextTry_ok_iff _ _ _ _ _ _).mp h2 with ⟨hf, rfl⟩
      right
      exact ⟨hf1, hf, (Except.ok.injEq _ _).mp h.symm⟩
    | error e2 => rw [h2] at h; cases h

lemma inv_drawLine (fails : String → Bool) (line : String) (x sz : ℚ)
    (st st2 : LayoutState) (h : Inv st)
    (hok : drawLine fails line x sz st = Except.ok st2) : Inv st2 := by
  rcases drawLine_cases fails line x sz st st2 hok with ⟨_, rfl⟩ | ⟨_, _, rfl⟩ <;>
    exact inv_drawStep _ _ _ _ _ _ (by norm_num [lineHeight])
      (by norm_num [lineHeight, height, margin]) (by norm_num [lineHeight]) h

lemma inv_drawLines (fails : String → Bool) (x sz : ℚ) :
    ∀ (ls : List String) (st st2 : LayoutState), Inv st →
      drawLines fails x sz ls st = Except.ok st2 → Inv st2 := by
  intro ls
  induction ls with
  | nil =>
    intro st st2 h hok
    unfold drawLines at hok
    exact (Except.ok.injEq _ _).mp hok ▸ h
  | cons l ls ih =>
    intro st st2 h hok
    unfold drawLines at hok
    cases h1 : drawLine fails l x sz st with
    | ok s1 =>
      rw [h1] at hok
      exact ih s1 st2 (inv_drawLine fails l x sz st s1 h h1) hok
    | error e => rw [h1] at hok; cases hok

lemma inv_drawWrapped (fails : String → Bool) (meas : String → Option ℚ)
    (text : String) (x maxW sz : ℚ) (st st2 : LayoutState) (h : Inv st)
    (hok : drawWrapped fails meas text x maxW sz st = Except.ok st2) : Inv st2 := by
  unfold drawWrapped at hok
  exact inv_drawLines fails x sz _ _ st2 (inv_logCall _ st h) hok

lemma inv_drawTitle (fails : String → Bool) (text : String)
    (st st2 : LayoutState) (h : Inv st)
    (hok : drawTitle fails text st = Except.ok st2) : Inv st2 := by
  rcases drawTitle_cases fails text st st2 hok with ⟨_, rfl⟩ | ⟨_, _, rfl⟩ <;>
    exact inv_drawStep _ _ _ _ _ _ (by norm_num [lineHeight])
      (by norm_num [lineHeight, height, margin]) (by norm_num [lineHeight])
      (inv_logCall _ st h)

lemma inv_drawSectionHeader (fails : String → Bool) (text : String)
    (st st2 : LayoutState) (h : Inv st)
    (hok : drawSectionHeader fails text st = Except.ok st2) : Inv st2 := by
  rcases drawSectionHeader_cases fails text st st2 hok with ⟨_, rfl⟩ | ⟨_, _, rfl⟩ <;>
    exact inv_drawStep _ _ _ _ _ _ (by norm_num [lineHeight])
      (by norm_num [lineHeight, height, margin]) (by norm_num [lineHeight])
      (inv_logCall _ st h)

lemma inv_drawEach (fails : String → Bool) (meas : String → Option ℚ) :
    ∀ (ls : List String) (st st2 : LayoutState), Inv st →
      drawEach fails meas ls st = Except.ok st2 → Inv st2 := by
  intro ls
  induction ls with
  | nil =>
    intro st st2 h hok
    unfold drawEach at hok
    exact (Except.ok.injEq _ _).mp hok ▸ h
  | cons l ls ih =>
    intro st st2 h hok
    unfold drawEach at hok
    cases h1 : drawWrapped fails meas l margin maxTextWidth bodySize st with
    | ok s1 =>
      rw [h1] at hok
      exact ih s1 st2 (inv_drawWrapped fails meas l _ _ _ st s1 h h1) hok
    | error e => rw [h1] at hok; cases hok

lemma inv_drawParamLines (fails : String → Bool) (meas : String → Option ℚ) :
    ∀ (ps : List (String × String)) (st st2 : LayoutState), Inv st →
      drawParamLines fails meas ps st = Except.ok st2 → Inv st2 := by
  intro ps
  induction ps with
  | nil =>
    intro st st2 h hok
    unfold drawParamLines at hok
    exact (Except.ok.injEq _ _).mp hok ▸ h
  | cons p rest ih =>
    intro st st2 h hok
    unfold drawParamLines at hok
    cases h1 : drawWrapped fails meas (paramLine p) margin maxTextWidth bodySize st with
    | ok s1 =>
      rw [h1] at hok
      exact ih s1 st2 (inv_drawWrapped fails meas _ _ _ _ st s1 h h1) hok
    | error e => rw [h1] at hok; cases hok

lemma inv_echoTextStage (fails : String → Bool) (meas : String → Option ℚ)
    (ps : List (String × String)) (st st2 : LayoutState) (h : Inv st)
    (hok : echoTextStage fails meas ps st = Except.ok st2) : Inv st2 := by
  unfold echoTextStage at hok
  cases htp : textParam ps with
  | none =>
    rw [htp] at hok
    exact (Except.ok.injEq _ _).mp hok ▸ h
  | some v =>
    rw [htp] at hok
    dsimp only at hok
    by_cases hv : v = ""
    · rw [if_pos hv] at hok
      exact (Except.ok.injEq _ _).mp hok ▸ h
    · rw [if_neg hv] at hok
      cases h1 : drawWrapped fails meas (take500 v) margin maxTextWidth bodySize st with
      | ok s1 =>
        rw [h1] at hok
        have := inv_drawWrapped fails meas _ _ _ _ st s1 h h1
        exact (Except.ok.injEq _ _).mp hok ▸ inv_decY lineHeight s1 (by norm_num [lineHeight]) this
      | error e => rw [h1] at hok; cases hok

lemma inv_echoExtraStage (fails : String → Bool) (meas : String → Option ℚ)
    (ps : List (String × String)) (st st2 : LayoutState) (h : Inv st)
    (hok : echoExtraStage fails meas ps st = Except.ok st2) : Inv st2 := by
  unfold echoExtraStage at hok
  by_cases hx : (extraParams ps).length > 0
  · rw [if_pos hx] at hok
    cases h1 : drawSectionHeader fails "Extra information" st with
    | error e => rw [h1] at hok; cases hok
    | ok s1 =>
      rw [h1] at hok
      dsimp only at hok
      have hs1 : Inv s1 := inv_drawSectionHeader fails _ st s1 h h1
      by_cases hn : overflowCount ps > MAX_PARAMS
      · rw [if_pos hn] at hok
        cases h2 : drawWrapped fails meas extraNote margin maxTextWidth bodySize s1 with
        | error e => rw [h2] at hok; cases hok
        | ok s2 =>
          rw [h2] at hok
          dsimp only at hok
          have hs2 : Inv (decY lineHeight s2) :=
            inv_decY lineHeight s2 (by norm_num [lineHeight])
              (inv_drawWrapped fails meas _ _ _ _ s1 s2 hs1 h2)
          cases h3 : drawParamLines fails meas (extraParams ps) (decY lineHeight s2) with
          | error e => rw [h3] at hok; cases hok
          | ok s3 =>
            rw [h3] at hok
            dsimp only at hok
            have hs3 : Inv s3 := inv_drawParamLines fails meas _ _ s3 hs2 h3
            exact (Except.ok.injEq _ _).mp hok ▸
              inv_decY lineHeight s3 (by norm_num [lineHeight]) hs3
      · rw [if_neg hn] at hok
        dsimp only at hok
        cases h3 : drawParamLines fails meas (extraParams ps) s1 with
        | error e => rw [h3] at hok; cases hok
        | ok s3 =>
          rw [h3] at hok
          dsimp only at hok
          have hs3 : Inv s3 := inv_drawParamLines fails meas _ _ s3 hs1 h3
          exact (Except.ok.injEq _ _).mp hok ▸
            inv_decY lineHeight s3 (by norm_num [lineHeight]) hs3
  · rw [if_neg hx] at hok
    exact (Except.ok.injEq _ _).mp hok ▸ h

lemma inv_echoThroughExtra (fails : String → Bool) (meas : String → Option ℚ)
    (ps : List (String × String)) (st st2 : LayoutState) (h : Inv st)
    (hok : echoThroughExtra fails meas ps st = Except.ok st2) : Inv st2 := by
  unfold echoThroughExtra at hok
  cases h1 : drawTitle fails (titleParam ps) st with
  | error e => rw [h1] at hok; cases hok
  | ok s1 =>
    rw [h1] at hok
    dsimp only at hok
    cases h2 : echoTextStage fails meas ps s1 with
    | error e => rw [h2] at hok; cases hok
    | ok s2 =>
      rw [h2] at hok
      dsimp only at hok
      exact inv_echoExtraStage fails meas ps s2 st2
        (inv_echoTextStage fails meas ps s1 s2 (inv_drawTitle fails _ st s1 h h1) h2) hok

lemma inv_echoFlow (fails : String → Bool) (meas : String → Option ℚ)
    (ps : List (String × String)) (st st2 : LayoutState) (h : Inv st)
    (hok : echoFlow fails meas ps st = Except.ok st2) : Inv st2 := by
  unfold echoFlow at hok
  cases h1 : echoThroughExtra fails meas ps st with
  | error e => rw [h1] at hok; cases hok
  | ok s1 =>
    rw [h1] at hok
    dsimp only at hok
    cases h2 : drawSectionHeader fails "Disclaimer" s1 with
    | error e => rw [h2] at hok; cases hok
    | ok s2 =>
      rw [h2] at hok
      dsimp only at hok
      exact inv_drawWrapped fails meas _ _ _ _ s2 st2
        (inv_drawSectionHeader fails _ s1 s2
          (inv_echoThroughExtra fails meas ps st s1 h h1) h2) hok

lemma inv_instructionsFlow (fails : String → Bool) (meas : String → Option ℚ)
    (origin pathname : String) (st st2 : LayoutState) (h : Inv st)
    (hok : instructionsFlow fails meas origin pathname st = Except.ok st2) : Inv st2 := by
  unfold instructionsFlow at hok
  cases h1 : drawTitle fails instrTitle st with
  | error e => rw [h1] at hok; cases hok
  | ok s1 =>
  rw [h1] at hok
  dsimp only at hok
  have hs1 : Inv s1 := inv_drawTitle fails _ st s1 h h1
  cases h2 : drawSectionHeader fails "Purpose" s1 with
  | error e => rw [h2] at hok; cases hok
  | ok s2 =>
  rw [h2] at hok
  dsimp only at hok
  have hs2 : Inv s2 := inv_drawSectionHeader fails _ s1 s2 hs1 h2
  cases h3 : drawWrapped fails meas purposeText margin maxTextWidth bodySize s2 with
  | error e => rw [h3] at hok; cases hok
  | ok s3 =>
  rw [h3] at hok
  dsimp only at hok
  have hs3 : Inv (decY lineHeight s3) :=
    inv_decY lineHeight s3 (by norm_num [lineHeight]) (inv_drawWrapped fails meas _ _ _ _ s2 s3 hs2 h3)
  cases h4 : drawSectionHeader fails "Use Cases" (decY lineHeight s3) with
  | error e => rw [h4] at hok; cases hok
  | ok s4 =>
  rw [h4] at hok
  dsimp only at hok
  have hs4 : Inv s4 := inv_drawSectionHeader fails _ _ s4 hs3 h4
  cases h5 : drawEach fails meas useCasesLines s4 with
  | error e => rw [h5] at hok; cases hok
  | ok s5 =>
  rw [h5] at hok
  dsimp only at hok
  have hs5 : Inv (decY lineHeight s5) :=
    inv_decY lineHeight s5 (by norm_num [lineHeight]) (inv_drawEach fails meas _ s4 s5 hs4 h5)
  cases h6 : drawSectionHeader fails "Example Usage" (decY lineHeight s5) with
  | error e => rw [h6] at hok; cases hok
  | ok s6 =>
  rw [h6] at hok
  dsimp only at hok
  have hs6 : Inv s6 := inv_drawSectionHeader fails _ _ s6 hs5 h6
  cases h7 : drawWrapped fails meas (exampleLine origin pathname) margin maxTextWidth bodySize s6 with
  | error e => rw [h7] at hok; cases hok
  | ok s7 =>
  rw [h7] at hok
  dsimp only at hok
  have hs7 : Inv (decY (lineHeight * 2) s7) :=
    inv_decY _ s7 (by norm_num [lineHeight]) (inv_drawWrapped fails meas _ _ _ _ s6 s7 hs6 h7)
  cases h8 : drawSectionHeader fails "Notes" (decY (lineHeight * 2) s7) with
  | error e => rw [h8] at hok; cases hok
  | ok s8 =>
  rw [h8] at hok
  dsimp only at hok
  have hs8 : Inv s8 := inv_drawSectionHeader fails _ _ s8 hs7 h8
  cases h9 : drawEach fails meas notesLines s8 with
  | error e => rw [h9] at hok; cases hok
  | ok s9 =>
  rw [h9] at hok
  dsimp only at hok
  have hs9 : Inv (decY lineHeight s9) :=
    inv_decY lineHeight s9 (by norm_num [lineHeight]) (inv_drawEach fails meas _ s8 s9 hs8 h9)
  cases h10 : drawSectionHeader fails "Disclaimer" (decY lineHeight s9) with
  | error e => rw [h10] at hok; cases hok
  | ok s10 =>
  rw [h10] at hok
  dsimp only at hok
  have hs10 : Inv s10 := inv_drawSectionHeader fails _ _ s10 hs9 h10
  exact inv_drawWrapped fails meas _ _ _ _ s10 st2 hs10 hok

/-- Every successful construction satisfies the layout invariant. -/
lemma inv_buildPdf (fails : String → Bool) (meas : String → Option ℚ)
    (origin pathname : String) (ps : List (String × String)) (st2 : LayoutState)
    (hok : buildPdf fails meas origin pathname ps = Except.ok st2) : Inv st2 := by
  unfold buildPdf at hok
  by_cases hps : ps.length = 0
  · rw [if_pos hps] at hok
    exact inv_instructionsFlow fails meas origin pathname initState st2 inv_initState hok
  · rw [if_neg hps] at hok
    exact inv_echoFlow fails meas ps initState st2 inv_initState hok

/-- A 40-parameter echo request: enough short lines to overflow one page. -/
def longRequestParams : List (String × String) := List.replicate 40 ("a", "1")

set_option maxRecDepth 100000 in
/-- C2 (amended).  (1) Every line drawn by a successful construction sits
between the bottom and the top margin (`margin ≤ y ≤ height − margin` at
every draw position); (2) whenever drawing the next line would bring the
cursor below the bottom margin, `ensureSpace` allocates a new page and
resets the cursor to `height − margin` before the draw; (3) a request with
enough content yields more than one page.  (The claim's stronger invariant
`margin ≤ y` at every point *between* draw operations fails: inter-block
spacing decrements may push the cursor below the bottom margin before the
next `ensureSpace` repairs it — see the counterexample.) -/
theorem drawn_in_bounds_and_pagination :
    (∀ (fails : String → Bool) (meas : String → Option ℚ) (origin pathname : String)
        (ps : List (String × String)) (st : LayoutState),
        buildPdf fails meas origin pathname ps = Except.ok st →
        ∀ d ∈ st.drawn, margin ≤ d.y ∧ d.y ≤ height - margin) ∧
      (∀ st : LayoutState, st.y - lineHeight < margin →
        (ensureSpace lineHeight st).y = height - margin ∧
          (ensureSpace lineHeight st).pages = st.pages + 1) ∧
      resultPages (buildPdf noDrawFailure estimateOnly "https://x.test" "/"
        longRequestParams) = 2 := by
  refine ⟨?_, ?_, ?_⟩
  · intro fails meas o p ps st hok d hd
    exact (inv_buildPdf fails meas o p ps st hok).1 d hd
  · intro st h
    unfold ensureSpace newPage
    rw [if_pos h]
    exact ⟨rfl, rfl⟩
  · with_unfolding_all decide

/-- The final state of a small echo request, used as witness data. -/
def smallRunState : LayoutState :=
  resultState (buildPdf noDrawFailure estimateOnly "https://x.test" "/" [("k", "v")])

/-- The first line drawn by the small echo request. -/
def smallRunHead : DrawnLine :=
  smallRunState.drawn.headD ⟨0, "", 0, 0, 0⟩

set_option maxRecDepth 100000 in
/-- Witness for C2's amended theorem at a concrete input. -/
theorem drawn_in_bounds_witness :
    margin ≤ smallRunHead.y ∧ smallRunHead.y ≤ height - margin :=
  drawn_in_bounds_and_pagination.1 noDrawFailure estimateOnly "https://x.test" "/"
    [("k", "v")] smallRunState (by with_unfolding_all rfl) smallRunHead
    (by with_unfolding_all decide)

/-- The layout state right after the "Extra information" block of an echo
request with 34 one-line parameters — a point between draw operations. -/
def midState34 : LayoutState :=
  resultState (echoThroughExtra noDrawFailure estimateOnly
    (List.replicate 34 ("a", "1")) initState)

set_option maxRecDepth 100000 in
/-- Counterexample to C2 as stated: after the extra-information block of a
34-parameter request (a reachable point between draw operations: the
Disclaimer header is drawn next), the cursor sits at `y = 49 < margin`,
because the closing `y -= lineHeight` spacing decrement runs without any
`ensureSpace` guard.  So `margin ≤ y` does not hold at every point between
draw operations. -/
theorem between_ops_cursor_cex :
    echoThroughExtra noDrawFailure estimateOnly (List.replicate 34 ("a", "1")) initState =
        Except.ok midState34 ∧
      midState34.y < margin := by
  constructor
  · with_unfolding_all rfl
  · with_unfolding_all decide

lemma drawLine_calls (fails : String → Bool) (line : String) (x sz : ℚ)
    (st st2 : LayoutState) (h : drawLine fails line x sz st = Except.ok st2) :
    st2.calls = st.calls := by
  rcases drawLine_cases fails line x sz st st2 h with ⟨_, rfl⟩ | ⟨_, _, rfl⟩ <;>
    simp [decY, pushDrawn, ensureSpace_calls]

lemma drawStep_drawn (s : String) (x sz n d : ℚ) (st : LayoutState) :
    (decY d (pushDrawn s x sz (ensureSpace n st))).drawn =
      st.drawn ++ [⟨(ensureSpace n st).pages, s, x, (ensureSpace n st).y, sz⟩] := by
  simp [decY, pushDrawn, ensureSpace_drawn]

lemma drawLine_drawn_ext (fails : String → Bool) (line : String) (x sz : ℚ)
    (st st2 : LayoutState) (h : drawLine fails line x sz st = Except.ok st2) :
    ∃ r, st2.drawn = st.drawn ++ [r] := by
  rcases drawLine_cases fails line x sz st st2 h with ⟨_, rfl⟩ | ⟨_, _, rfl⟩ <;>
    exact ⟨_, drawStep_drawn _ x sz lineHeight lineHeight st⟩

lemma drawLine_drawn_texts (fails : String → Bool) (line : String) (x sz : ℚ)
    (st st2 : LayoutState) (h : drawLine fails line x sz st = Except.ok st2) :
    st2.drawn.map DrawnLine.text = st.drawn.map DrawnLine.text ++
      [if fails line = true then asciiFallback line else line] := by
  rcases drawLine_cases fails line x sz st st2 h with ⟨hf, rfl⟩ | ⟨hf, _, rfl⟩ <;>
    simp [decY, pushDrawn, ensureSpace_drawn, hf]

lemma drawLines_calls (fails : String → Bool) (x sz : ℚ) :
    ∀ (ls : List String) (st st2 : LayoutState),
      drawLines fails x sz ls st = Except.ok st2 → st2.calls = st.calls := by
  intro ls
  induction ls with
  | nil =>
    intro st st2 hok
    unfold drawLines at hok
    exact (Except.ok.injEq _ _).mp hok ▸ rfl
  | cons l ls ih =>
    intro st st2 hok
    unfold drawLines at hok
    cases h1 : drawLine fails l x sz st with
    | ok s1 =>
      rw [h1] at hok
      rw [ih s1 st2 hok, drawLine_calls fails l x sz st s1 h1]
    | error e => rw [h1] at hok; cases hok

lemma drawLines_drawn_ext (fails : String → Bool) (x sz : ℚ) :
    ∀ (ls : List String) (st st2 : LayoutState),
      drawLines fails x sz ls st = Except.ok st2 → ∃ δ, st2.drawn = st.drawn ++ δ := by
  intro ls
  induction ls with
  | nil =>
    intro st st2 hok
    unfold drawLines at hok
    exact ⟨[], by rw [List.append_nil]; exact ((Except.ok.injEq _ _).mp hok).symm ▸ rfl⟩
  | cons l ls ih =>
    intro st st2 hok
    unfold drawLines at hok
    cases h1 : drawLine fails l x sz st with
    | ok s1 =>
      rw [h1] at hok
      rcases ih s1 st2 hok with ⟨d2, hd2⟩
      rcases drawLine_drawn_ext fails l x sz st s1 h1 with ⟨r, hr⟩
      exact ⟨[r] ++ d2, by rw [hd2, hr, List.append_assoc]⟩
    | error e => rw [h1] at hok; cases hok

lemma drawLines_drawn_texts (x sz : ℚ) :
    ∀ (ls : List String) (st st2 : LayoutState),
      drawLines noDrawFailure x sz ls st = Except.ok st2 →
      st2.drawn.map DrawnLine.text = st.drawn.map DrawnLine.text ++ ls := by
  intro ls
  induction ls with
  | nil =>
    intro st st2 hok
    unfold drawLines at hok
    rw [List.append_nil]
    exact (Except.ok.injEq _ _).mp hok ▸ rfl
  | cons l ls ih =>
    intro st st2 hok
    unfold drawLines at hok
    cases h1 : drawLine noDrawFailure l x sz st with
    | ok s1 =>
      rw [h1] at hok
      have h2 := drawLine_drawn_texts noDrawFailure l x sz st s1 h1
      rw [ih s1 st2 hok, h2]
      simp [noDrawFailure]
    | error e => rw [h1] at hok; cases hok

lemma drawWrapped_calls (fails : String → Bool) (meas : String → Option ℚ)
    (text : String) (x maxW sz : ℚ) (st st2 : LayoutState)
    (h : drawWrapped fails meas text x maxW sz st = Except.ok st2) :
    st2.calls = st.calls ++ [Call.wrapped text] := by
  unfold drawWrapped at h
  rw [drawLines_calls fails x sz _ _ st2 h]
  rfl

lemma drawWrapped_drawn_ext (fails : String → Bool) (meas : String → Option ℚ)
    (text : String) (x maxW sz : ℚ) (st st2 : LayoutState)
    (h : drawWrapped fails meas text x maxW sz st = Except.ok st2) :
    ∃ δ, st2.drawn = st.drawn ++ δ := by
  unfold drawWrapped at h
  exact drawLines_drawn_ext fails x sz _ (logCall (Call.wrapped text) st) st2 h

lemma drawWrapped_drawn_texts (meas : String → Option ℚ)
    (text : String) (x maxW sz : ℚ) (st st2 : LayoutState)
    (h : drawWrapped noDrawFailure meas text x maxW sz st = Except.ok st2) :
    st2.drawn.map DrawnLine.text =
      st.drawn.map DrawnLine.text ++ wrapText meas text maxW sz := by
  unfold drawWrapped at h
  exact drawLines_drawn_texts x sz _ (logCall (Call.wrapped text) st) st2 h

lemma drawTitle_calls (fails : String → Bool) (text : String)
    (st st2 : LayoutState) (h : drawTitle fails text st = Except.ok st2) :
    st2.calls = st.calls ++ [Call.title text] := by
  rcases drawTitle_cases fails text st st2 h with ⟨_, rfl⟩ | ⟨_, _, rfl⟩ <;>
    simp [decY, pushDrawn, ensureSpace_calls, logCall]

lemma drawTitle_drawn_ext (fails : String → Bool) (text : String)
    (st st2 : LayoutState) (h : drawTitle fails text st = Except.ok st2) :
    ∃ r, st2.drawn = st.drawn ++ [r] := by
  rcases drawTitle_cases fails text st st2 h with ⟨_, rfl⟩ | ⟨_, _, rfl⟩ <;>
    exact ⟨_, drawStep_drawn _ margin titleSize (lineHeight * 2) (lineHeight * 2)
      (logCall (Call.title text) st)⟩

lemma drawSectionHeader_calls (fails : String → Bool) (text : String)
    (st st2 : LayoutState) (h : drawSectionHeader fails text st = Except.ok st2) :
    st2.calls = st.calls ++ [Call.header text] := by
  rcases drawSectionHeader_cases fails text st st2 h with ⟨_, rfl⟩ | ⟨_, _, rfl⟩ <;>
    simp [decY, pushDrawn, ensureSpace_calls, logCall]

lemma drawSectionHeader_drawn_ext (fails : String → Bool) (text : String)
    (st st2 : LayoutState) (h : drawSectionHeader fails text st = Except.ok st2) :
    ∃ r, st2.drawn = st.drawn ++ [r] := by
  rcases drawSectionHeader_cases fails text st st2 h with ⟨_, rfl⟩ | ⟨_, _, rfl⟩ <;>
    exact ⟨_, drawStep_drawn _ margin sectionHeaderSize (lineHeight * 2) (lineHeight * (3 / 2))
      (logCall (Call.header text) st)⟩

lemma drawParamLines_calls (fails : String → Bool) (meas : String → Option ℚ) :
    ∀ (ps : List (String × String)) (st st2 : LayoutState),
      drawParamLines fails meas ps st = Except.ok st2 →
      st2.calls = st.calls ++ ps.map (fun p => Call.wrapped (paramLine p)) := by
  intro ps
  induction ps with
  | nil =>
    intro st st2 hok
    unfold drawParamLines at hok
    rw [List.map_nil, List.append_nil]
    exact (Except.ok.injEq _ _).mp hok ▸ rfl
  | cons p rest ih =>
    intro st st2 hok
    unfold drawParamLines at hok
    cases h1 : drawWrapped fails meas (paramLine p) margin maxTextWidth bodySize st with
    | ok s1 =>
      rw [h1] at hok
      rw [ih s1 st2 hok, drawWrapped_calls fails meas _ _ _ _ st s1 h1]
      simp
    | error e => rw [h1] at hok; cases hok

lemma drawParamLines_drawn_ext (fails : String → Bool) (meas : String → Option ℚ) :
    ∀ (ps : List (String × String)) (st st2 : LayoutState),
      drawParamLines fails meas ps st = Except.ok st2 → ∃ δ, st2.drawn = st.drawn ++ δ := by
  intro ps
  induction ps with
  | nil =>
    intro st st2 hok
    unfold drawParamLines at hok
    exact ⟨[], by rw [List.append_nil]; exact ((Except.ok.injEq _ _).mp hok).symm ▸ rfl⟩
  | cons p rest ih =>
    intro st st2 hok
    unfold drawParamLines at hok
    cases h1 : drawWrapped fails meas (paramLine p) margin maxTextWidth bodySize st with
    | ok s1 =>
      rw [h1] at hok
      rcases ih s1 st2 hok with ⟨d2, hd2⟩
      rcases drawWrapped_drawn_ext fails meas _ _ _ _ st s1 h1 with ⟨d1, hd1⟩
      exact ⟨d1 ++ d2, by rw [hd2, hd1, List.append_assoc]⟩
    | error e => rw [h1] at hok; cases hok

/-- The calls the echo-text stage appends: one `drawWrapped` of the
truncated value when the `text` parameter is present and non-empty. -/
def textStageCalls (ps : List (String × String)) : List Call :=
  match textParam ps with
  | none => []
  | some v => if v = "" then [] else [Call.wrapped (take500 v)]

lemma echoTextStage_calls (fails : String → Bool) (meas : String → Option ℚ)
    (ps : List (String × String)) (st st2 : LayoutState)
    (hok : echoTextStage fails meas ps st = Except.ok st2) :
    st2.calls = st.calls ++ textStageCalls ps := by
  unfold echoTextStage at hok
  cases htp : textParam ps with
  | none =>
    rw [htp] at hok
    simp only [textStageCalls, htp, List.append_nil]
    exact (Except.ok.injEq _ _).mp hok ▸ rfl
  | some v =>
    rw [htp] at hok
    dsimp only at hok
    by_cases hv : v = ""
    · rw [if_pos hv] at hok
      simp only [textStageCalls, htp, if_pos hv, List.append_nil]
      exact (Except.ok.injEq _ _).mp hok ▸ rfl
    · rw [if_neg hv] at hok
      simp only [textStageCalls, htp, if_neg hv]
      cases h1 : drawWrapped fails meas (take500 v) margin maxTextWidth bodySize st with
      | ok s1 =>
        rw [h1] at hok
        have := drawWrapped_calls fails meas _ _ _ _ st s1 h1
        have h2 : st2 = decY lineHeight s1 := ((Except.ok.injEq _ _).mp hok).symm
        rw [h2]
        exact this
      | error e => rw [h1] at hok; cases hok

lemma echoTextStage_drawn_ext (fails : String → Bool) (meas : String → Option ℚ)
    (ps : List (String × String)) (st st2 : LayoutState)
    (hok : echoTextStage fails meas ps st = Except.ok st2) :
    ∃ δ, st2.drawn = st.drawn ++ δ := by
  unfold echoTextStage at hok
  cases htp : textParam ps with
  | none =>
    rw [htp] at hok
    exact ⟨[], by rw [List.append_nil]; exact ((Except.ok.injEq _ _).mp hok).symm ▸ rfl⟩
  | some v =>
    rw [htp] at hok
    dsimp only at hok
    by_cases hv : v = ""
    · rw [if_pos hv] at hok
      exact ⟨[], by rw [List.append_nil]; exact ((Except.ok.injEq _ _).mp hok).symm ▸ rfl⟩
    · rw [if_neg hv] at hok
      cases h1 : drawWrapped fails meas (take500 v) margin maxTextWidth bodySize st with
      | ok s1 =>
        rw [h1] at hok
        rcases drawWrapped_drawn_ext fails meas _ _ _ _ st s1 h1 with ⟨d1, hd1⟩
        have h2 : st2 = decY lineHeight s1 := ((Except.ok.injEq _ _).mp hok).symm
        exact ⟨d1, by rw [h2]; exact hd1⟩
      | error e => rw [h1] at hok; cases hok

/-- The calls the extra-information block appends, as a pure function of
the parameter list: nothing when no non-reserved parameter survives,
otherwise the section header, the conditional note, and one wrapped
`key = value` line per retained parameter occurrence (duplicates kept), in
original query order. -/
def extraSectionCalls (ps : List (String × String)) : List Call :=
  if (extraParams ps).length > 0 then
    Call.header "Extra information" ::
      ((if overflowCount ps > MAX_PARAMS then [Call.wrapped extraNote] else []) ++
        (extraParams ps).map (fun p => Call.wrapped (paramLine p)))
  else []

lemma echoExtraStage_calls (fails : String → Bool) (meas : String → Option ℚ)
    (ps : List (String × String)) (st st2 : LayoutState)
    (hok : echoExtraStage fails meas ps st = Except.ok st2) :
    st2.calls = st.calls ++ extraSectionCalls ps := by
  unfold echoExtraStage at hok
  unfold extraSectionCalls
  by_cases hx : (extraParams ps).length > 0
  · rw [if_pos hx] at hok
    rw [if_pos hx]
    cases h1 : drawSectionHeader fails "Extra information" st with
    | error e => rw [h1] at hok; cases hok
    | ok s1 =>
      rw [h1] at hok
      dsimp only at hok
      have hc1 := drawSectionHeader_calls fails _ st s1 h1
      by_cases hn : overflowCount ps > MAX_PARAMS
      · rw [if_pos hn] at hok
        rw [if_pos hn]
        cases h2 : drawWrapped fails meas extraNote margin maxTextWidth bodySize s1 with
        | error e => rw [h2] at hok; cases hok
        | ok s2 =>
          rw [h2] at hok
          dsimp only at hok
          have hc2 := drawWrapped_calls fails meas _ _ _ _ s1 s2 h2
          cases h3 : drawParamLines fails meas (extraParams ps) (decY lineHeight s2) with
          | error e => rw [h3] at hok; cases hok
          | ok s3 =>
            rw [h3] at hok
            have hc3 := drawParamLines_calls fails meas _ _ s3 h3
            have h4 : st2 = decY lineHeight s3 := ((Except.ok.injEq _ _).mp hok).symm
            rw [h4]
            show s3.calls = _
            rw [hc3]
            show (decY lineHeight s2).calls ++ _ = _
            have : (decY lineHeight s2).calls = s2.calls := rfl
            rw [this, hc2, hc1]
            simp
      · rw [if_neg hn] at hok
        rw [if_neg hn]
        dsimp only at hok
        cases h3 : drawParamLines fails meas (extraParams ps) s1 with
        | error e => rw [h3] at hok; cases hok
        | ok s3 =>
          rw [h3] at hok
          have hc3 := drawParamLines_calls fails meas _ _ s3 h3
          have h4 : st2 = decY lineHeight s3 := ((Except.ok.injEq _ _).mp hok).symm
          rw [h4]
          show s3.calls = _
          rw [hc3, hc1]
          simp
  · rw [if_neg hx] at hok
    rw [if_neg hx, List.append_nil]
    exact (Except.ok.injEq _ _).mp hok ▸ rfl

lemma echoExtraStage_drawn_ext (fails : String → Bool) (meas : String → Option ℚ)
    (ps : List (String × String)) (st st2 : LayoutState)
    (hok : echoExtraStage fails meas ps st = Except.ok st2) :
    ∃ δ, st2.drawn = st.drawn ++ δ := by
  unfold echoExtraStage at hok
  by_cases hx : (extraParams ps).length > 0
  · rw [if_pos hx] at hok
    cases h1 : drawSectionHeader fails "Extra information" st with
    | error e => rw [h1] at hok; cases hok
    | ok s1 =>
      rw [h1] at hok
      dsimp only at hok
      rcases drawSectionHeader_drawn_ext fails _ st s1 h1 with ⟨r1, hr1⟩
      by_cases hn : overflowCount ps > MAX_PARAMS
      · rw [if_pos hn] at hok
        cases h2 : drawWrapped fails meas extraNote margin maxTextWidth bodySize s1 with
        | error e => rw [h2] at hok; cases hok
        | ok s2 =>
          rw [h2] at hok
          dsimp only at hok
          rcases drawWrapped_drawn_ext fails meas _ _ _ _ s1 s2 h2 with ⟨d2, hd2⟩
          cases h3 : drawParamLines fails meas (extraParams ps) (decY lineHeight s2) with
          | error e => rw [h3] at hok; cases hok
          | ok s3 =>
            rw [h3] at hok
            rcases drawParamLines_drawn_ext fails meas _ _ s3 h3 with ⟨d3, hd3⟩
            have h4 : st2 = decY lineHeight s3 := ((Except.ok.injEq _ _).mp hok).symm
            refine ⟨[r1] ++ d2 ++ d3, ?_⟩
            rw [h4]
            show s3.drawn = _
            rw [hd3]
            show (decY lineHeight s2).drawn ++ d3 = _
            have : (decY lineHeight s2).drawn = s2.drawn := rfl
            rw [this, hd2, hr1]
            simp [List.append_assoc]
      · rw [if_neg hn] at hok
        dsimp only at hok
        cases h3 : drawParamLines fails meas (extraParams ps) s1 with
        | error e => rw [h3] at hok; cases hok
        | ok s3 =>
          rw [h3] at hok
          rcases drawParamLines_drawn_ext fails meas _ _ s3 h3 with ⟨d3, hd3⟩
          have h4 : st2 = decY lineHeight s3 := ((Except.ok.injEq _ _).mp hok).symm
          refine ⟨[r1] ++ d3, ?_⟩
          rw [h4]
          show s3.drawn = _
          rw [hd3, hr1]
          simp [List.append_assoc]
  · rw [if_neg hx] at hok
    exact ⟨[], by rw [List.append_nil]; exact ((Except.ok.injEq _ _).mp hok).symm ▸ rfl⟩

/-- The spec's notion of "total count of non-reserved parameters": all
entries whose key is neither `title` nor `text`, counting duplicates.
This is the comparison definition for the claim's wording; the code itself
compares `overflowCount` against the cap instead. -/
def specNonReservedCount (ps : List (String × String)) : ℕ :=
  (ps.filter (fun p => !(p.1 == "title") && !(p.1 == "text"))).length

lemma paramLine_ne_extraNote (p : String × String) : paramLine p ≠ extraNote := by
  intro h
  have h1 : '=' ∈ (paramLine p).data := by
    unfold paramLine
    rw [String.data_append, String.data_append]
    exact List.mem_append.mpr (Or.inl (List.mem_append.mpr (Or.inr (by decide))))
  have h2 : '=' ∉ extraNote.data := by decide
  exact h2 (h ▸ h1)

lemma note_mem_iff (ps : List (String × String)) :
    Call.wrapped extraNote ∈ extraSectionCalls ps ↔
      ((extraParams ps).length > 0 ∧ overflowCount ps > MAX_PARAMS) := by
  unfold extraSectionCalls
  by_cases hx : (extraParams ps).length > 0
  · rw [if_pos hx]
    constructor
    · intro h
      refine ⟨hx, ?_⟩
      rcases List.mem_cons.mp h with h | h
      · cases h
      · rcases List.mem_append.mp h with h | h
        · by_cases hn : overflowCount ps > MAX_PARAMS
          · exact hn
          · rw [if_neg hn] at h
            exact absurd h (List.not_mem_nil _)
        · rcases List.mem_map.mp h with ⟨p, _, hp⟩
          have : paramLine p = extraNote := by
            have := (Call.wrapped.injEq _ _).mp hp
            exact this
          exact absurd this (paramLine_ne_extraNote p)
    · rintro ⟨_, hn⟩
      rw [if_pos hn]
      exact List.mem_cons_of_mem _ (List.mem_append.mpr (Or.inl (List.mem_singleton.mpr rfl)))
  · rw [if_neg hx]
    simp [hx]

/-- C3 (amended).  In echo mode, the calls the extra-information block
appends are exactly `extraSectionCalls`: the note line is emitted if and
only if some non-reserved parameter survives and `params.length` minus one
per *present* reserved key (so duplicate `title`/`text` occurrences still
count) exceeds 50; and whenever the total count of non-reserved parameters
(duplicates included) exceeds 50, exactly the first 50 of them are rendered
as `key = value` lines in original query order. -/
theorem note_exactly_on_overflow (fails : String → Bool) (meas : String → Option ℚ)
    (ps : List (String × String)) (st st2 : LayoutState)
    (hok : echoExtraStage fails meas ps st = Except.ok st2) :
    st2.calls = st.calls ++ extraSectionCalls ps ∧
      (Call.wrapped extraNote ∈ extraSectionCalls ps ↔
        ((extraParams ps).length > 0 ∧ overflowCount ps > MAX_PARAMS)) ∧
      (MAX_PARAMS < specNonReservedCount ps →
        (extraParams ps).length = MAX_PARAMS ∧
          ∀ i, i < MAX_PARAMS → (extraParams ps)[i]? =
            (ps.filter (fun p => !(p.1 == "title") && !(p.1 == "text")))[i]?) := by
  refine ⟨echoExtraStage_calls fails meas ps st st2 hok, note_mem_iff ps, ?_⟩
  intro hcount
  unfold specNonReservedCount at hcount
  constructor
  · unfold extraParams
    rw [List.length_take]
    omega
  · intro i hi
    unfold extraParams
    exact List.getElem?_take_of_lt hi

/-- Witness for C3's amended theorem at a concrete input. -/
theorem note_exactly_on_overflow_witness :
    (resultState (echoExtraStage noDrawFailure estimateOnly [("a", "1")] initState)).calls =
      initState.calls ++ extraSectionCalls [("a", "1")] :=
  (note_exactly_on_overflow noDrawFailure estimateOnly [("a", "1")] initState
    (resultState (echoExtraStage noDrawFailure estimateOnly [("a", "1")] initState))
    (by with_unfolding_all rfl)).1

/-- A request with a duplicated `title` key and exactly 50 non-reserved
parameters. -/
def ps52 : List (String × String) :=
  ("title", "x") :: ("title", "y") :: List.replicate 50 ("a", "1")

set_option maxRecDepth 100000 in
/-- Counterexample to C3 as stated: with a duplicated `title` key and
exactly 50 non-reserved parameters the total non-reserved count does not
exceed 50, yet the note line is drawn, because the code subtracts only one
occurrence per present reserved key from `params.length`. -/
theorem note_exactly_on_overflow_cex :
    specNonReservedCount ps52 = MAX_PARAMS ∧
      Call.wrapped extraNote ∈
        (resultState (buildPdf noDrawFailure estimateOnly "https://x.test" "/" ps52)).calls := by
  constructor
  · with_unfolding_all decide
  · with_unfolding_all decide

lemma find?_param_append (k : String) :
    ∀ (ps qs : List (String × String)), hasParam ps k = true →
      (ps ++ qs).find? (fun p => p.1 == k) = ps.find? (fun p => p.1 == k) := by
  intro ps
  induction ps with
  | nil => intro qs h; simp [hasParam] at h
  | cons p ps ih =>
    intro qs h
    by_cases hk : p.1 == k
    · rw [List.cons_append,
        @List.find?_cons_of_pos _ (fun q => q.1 == k) p (ps ++ qs) hk,
        @List.find?_cons_of_pos _ (fun q => q.1 == k) p ps hk]
    · rw [List.cons_append,
        @List.find?_cons_of_neg _ (fun q => q.1 == k) p (ps ++ qs) (by simpa using hk),
        @List.find?_cons_of_neg _ (fun q => q.1 == k) p ps (by simpa using hk)]
      apply ih
      have := h
      unfold hasParam at this ⊢
      rw [List.any_cons] at this
      rcases Bool.or_eq_true_iff.mp this with h1 | h1
      · exact absurd h1 hk
      · exact h1

lemma getParam_append (ps qs : List (String × String)) (k : String)
    (h : hasParam ps k = true) : getParam (ps ++ qs) k = getParam ps k := by
  unfold getParam
  rw [find?_param_append k ps qs h]

/-- C6 (amended).  The `title` and `text` values come from the first
occurrence of those keys (appending a later duplicate changes nothing),
while the Extra information section renders one `key = value` line per
*occurrence* of a non-reserved parameter among the first 50 retained
entries — so a repeated non-reserved key contributes one line per
occurrence, not at most one line per distinct key. -/
theorem first_occurrence_and_duplicate_lines :
    (∀ (ps : List (String × String)) (w : String), hasParam ps "title" = true →
        titleParam (ps ++ [("title", w)]) = titleParam ps) ∧
      (∀ (ps : List (String × String)) (w : String), hasParam ps "text" = true →
        textParam (ps ++ [("text", w)]) = textParam ps) ∧
      (∀ (fails : String → Bool) (meas : String → Option ℚ) (ps : List (String × String))
          (st st2 : LayoutState), echoExtraStage fails meas ps st = Except.ok st2 →
        st2.calls = st.calls ++ extraSectionCalls ps) := by
  refine ⟨?_, ?_, ?_⟩
  · intro ps w h
    unfold titleParam
    rw [getParam_append ps [("title", w)] "title" h]
  · intro ps w h
    unfold textParam
    rw [getParam_append ps [("text", w)] "text" h]
  · intro fails meas ps st st2 hok
    exact echoExtraStage_calls fails meas ps st st2 hok

/-- Witness for C6's amended theorem at a concrete input. -/
theorem first_occurrence_witness :
    titleParam ([("title", "x")] ++ [("title", "y")]) = titleParam [("title", "x")] :=
  first_occurrence_and_duplicate_lines.1 [("title", "x")] "y" (by decide)

set_option maxRecDepth 100000 in
/-- Counterexample to C6 as stated: the repeated non-reserved key `a`
contributes two `key = value` lines (one per occurrence), not at most one
line per distinct key: `extraParams` filters and slices but never
deduplicates. -/
theorem dup_key_two_lines_cex :
    (extraParams [("a", "1"), ("a", "2")]).map Prod.fst = ["a", "a"] ∧
      Call.wrapped "a = 1" ∈ (resultState (buildPdf noDrawFailure estimateOnly
        "https://x.test" "/" [("a", "1"), ("a", "2")])).calls ∧
      Call.wrapped "a = 2" ∈ (resultState (buildPdf noDrawFailure estimateOnly
        "https://x.test" "/" [("a", "1"), ("a", "2")])).calls := by
  refine ⟨?_, ?_, ?_⟩ <;> with_unfolding_all decide

/-- With a never-failing draw collaborator, the echo title draw from the
initial state draws `processText` of the title argument at the top of
page 1 and moves the cursor down two line heights. -/
lemma drawTitle_from_init (t : String) :
    drawTitle noDrawFailure t initState = Except.ok
      { pages := 1, y := height - margin - lineHeight * 2,
        drawn := [⟨1, processText t, margin, height - margin, titleSize⟩],
        calls := [Call.title t] } := by
  with_unfolding_all rfl

/-- Through the echo branch, the first drawn line is always the processed
title at the top of page 1. -/
lemma echoThroughExtra_head (meas : String → Option ℚ) (ps : List (String × String))
    (s1 : LayoutState)
    (hok : echoThroughExtra noDrawFailure meas ps initState = Except.ok s1) :
    ∃ δ, s1.drawn =
      ⟨1, processText (titleParam ps), margin, height - margin, titleSize⟩ :: δ := by
  unfold echoThroughExtra at hok
  rw [drawTitle_from_init (titleParam ps)] at hok
  dsimp only at hok
  cases h2 : echoTextStage noDrawFailure meas ps
      { pages := 1, y := height - margin - lineHeight * 2,
        drawn := [⟨1, processText (titleParam ps), margin, height - margin, titleSize⟩],
        calls := [Call.title (titleParam ps)] } with
  | error e => rw [h2] at hok; cases hok
  | ok s2 =>
    rw [h2] at hok
    rcases echoTextStage_drawn_ext noDrawFailure meas ps _ s2 h2 with ⟨d1, hd1⟩
    rcases echoExtraStage_drawn_ext noDrawFailure meas ps s2 s1 hok with ⟨d2, hd2⟩
    refine ⟨d1 ++ d2, ?_⟩
    rw [hd2, hd1]
    simp

/-- Through a whole successful echo construction, the first drawn line is
the processed title at the top of page 1. -/
lemma buildPdf_title_head (meas : String → Option ℚ) (origin pathname : String)
    (ps : List (String × String)) (st : LayoutState) (hps : ¬ ps.length = 0)
    (hok : buildPdf noDrawFailure meas origin pathname ps = Except.ok st) :
    st.drawn.head? =
      some ⟨1, processText (titleParam ps), margin, height - margin, titleSize⟩ := by
  unfold buildPdf at hok
  rw [if_neg hps] at hok
  unfold echoFlow at hok
  cases h1 : echoThroughExtra noDrawFailure meas ps initState with
  | error e => rw [h1] at hok; cases hok
  | ok s1 =>
    rw [h1] at hok
    dsimp only at hok
    cases h2 : drawSectionHeader noDrawFailure "Disclaimer" s1 with
    | error e => rw [h2] at hok; cases hok
    | ok s2 =>
      rw [h2] at hok
      rcases echoThroughExtra_head meas ps s1 h1 with ⟨δ, hδ⟩
      rcases drawSectionHeader_drawn_ext noDrawFailure _ s1 s2 h2 with ⟨r2, hr2⟩
      rcases drawWrapped_drawn_ext noDrawFailure meas _ _ _ _ s2 st hok with ⟨d3, hd3⟩
      rw [hd3, hr2, hδ]
      simp

/-- The default `DrawnLine` used with `headD` in concrete statements. -/
def noLine : DrawnLine := ⟨0, "", 0, 0, 0⟩

/-- C5 (amended).  For every request with a non-empty `title` value `v`,
the rendered title text is `processText v` of the *entire* value: no
500-character truncation is applied to the title (only `text` and the
extra-parameter values are truncated). -/
theorem title_not_truncated (meas : String → Option ℚ) (origin pathname : String)
    (ps : List (String × String)) (v : String) (st : LayoutState)
    (hv : getParam ps "title" = some v) (hvne : v ≠ "")
    (hok : buildPdf noDrawFailure meas origin pathname ps = Except.ok st) :
    st.drawn.head? = some ⟨1, processText v, margin, height - margin, titleSize⟩ := by
  have hps : ¬ ps.length = 0 := by
    intro h
    rw [List.length_eq_zero] at h
    subst h
    simp [getParam] at hv
  have hhead := buildPdf_title_head meas origin pathname ps st hps hok
  have htp : titleParam ps = v := by
    unfold titleParam
    rw [hv]
    dsimp only
    rw [if_neg hvne]
  rwa [htp] at hhead

set_option maxRecDepth 100000 in
/-- Witness for C5's amended theorem at a concrete input. -/
theorem title_not_truncated_witness :
    (resultState (buildPdf noDrawFailure estimateOnly "https://x.test" "/"
        [("title", "Hello")])).drawn.head? =
      some ⟨1, processText "Hello", margin, height - margin, titleSize⟩ :=
  title_not_truncated estimateOnly "https://x.test" "/" [("title", "Hello")] "Hello"
    (resultState (buildPdf noDrawFailure estimateOnly "https://x.test" "/"
      [("title", "Hello")]))
    (by decide) (by decide) (by with_unfolding_all rfl)

/-- A 501-character title value. -/
def longTitle : String := String.mk (List.replicate 501 'a')

set_option maxRecDepth 1000000 in
/-- Counterexample to C5 as stated: a 501-character title is rendered in
full — the drawn title has 501 characters, while the claim's
`min(L, 500)`-truncation would keep only 500. -/
theorem title_not_truncated_cex :
    ((resultState (buildPdf noDrawFailure estimateOnly "https://x.test" "/"
        [("title", longTitle)])).drawn.headD noLine).text = longTitle ∧
      longTitle.data.length = 501 ∧
      longTitle ≠ take500 longTitle := by
  refine ⟨?_, ?_, ?_⟩ <;> with_unfolding_all decide

/-- C10 (confirmed).  With one or more parameters and a `title` key whose
value is empty (or no `title` key at all), the rendered title is the
literal default `"PDF"`: the `||` default applies to the empty string, not
only to an absent key. -/
theorem empty_title_renders_default (meas : String → Option ℚ) (origin pathname : String)
    (ps : List (String × String)) (st : LayoutState)
    (hps : ps ≠ [])
    (hv : getParam ps "title" = none ∨ getParam ps "title" = some "")
    (hok : buildPdf noDrawFailure meas origin pathname ps = Except.ok st) :
    st.drawn.head? = some ⟨1, "PDF", margin, height - margin, titleSize⟩ := by
  have hps' : ¬ ps.length = 0 := by
    intro h
    exact hps (List.length_eq_zero.mp h)
  have hhead := buildPdf_title_head meas origin pathname ps st hps' hok
  have htp : titleParam ps = "PDF" := by
    unfold titleParam
    rcases hv with hv | hv <;> rw [hv]
    all_goals rfl
  rw [htp] at hhead
  have hpdf : processText "PDF" = "PDF" := rfl
  rwa [hpdf] at hhead

set_option maxRecDepth 100000 in
/-- Witness for C10's theorem at a concrete input. -/
theorem empty_title_renders_default_witness :
    (resultState (buildPdf noDrawFailure estimateOnly "https://x.test" "/"
        [("title", "")])).drawn.head? =
      some ⟨1, "PDF", margin, height - margin, titleSize⟩ :=
  empty_title_renders_default estimateOnly "https://x.test" "/" [("title", "")]
    (resultState (buildPdf noDrawFailure estimateOnly "https://x.test" "/" [("title", "")]))
    (by decide) (Or.inr (by decide)) (by with_unfolding_all rfl)

lemma echoTextStage_drawn_texts (meas : String → Option ℚ) (ps : List (String × String))
    (st st2 : LayoutState) (v : String) (hv : textParam ps = some v) (hvne : v ≠ "")
    (hok : echoTextStage noDrawFailure meas ps st = Except.ok st2) :
    st2.drawn.map DrawnLine.text =
      st.drawn.map DrawnLine.text ++ wrapText meas (take500 v) maxTextWidth bodySize := by
  unfold echoTextStage at hok
  rw [hv] at hok
  dsimp only at hok
  rw [if_neg hvne] at hok
  cases h1 : drawWrapped noDrawFailure meas (take500 v) margin maxTextWidth bodySize st with
  | ok s1 =>
    rw [h1] at hok
    have h2 : st2 = decY lineHeight s1 := ((Except.ok.injEq _ _).mp hok).symm
    rw [h2]
    exact drawWrapped_drawn_texts meas _ _ _ _ st s1 h1
  | error e => rw [h1] at hok; cases hok

lemma textStageCalls_of_text (ps : List (String × String)) (v : String)
    (hv : textParam ps = some v) (hvne : v ≠ "") :
    textStageCalls ps = [Call.wrapped (take500 v)] := by
  unfold textStageCalls
  rw [hv]
  dsimp only
  rw [if_neg hvne]

/-- C7 (confirmed).  For every request whose `text` value has more than 500
characters, the paragraph block drawn under the title is produced from
exactly the first 500 characters of that value: the raw (untransliterated)
truncated string is what `drawWrapped` receives (so truncation happens
before layout and transliteration), and the drawn paragraph lines are its
word-wrap. -/
theorem text_truncated_before_layout (meas : String → Option ℚ) (origin pathname : String)
    (ps : List (String × String)) (v : String) (st : LayoutState)
    (hv : textParam ps = some v) (hlen : MAX_VALUE_LEN < v.data.length)
    (hok : buildPdf noDrawFailure meas origin pathname ps = Except.ok st) :
    st.calls[1]? = some (Call.wrapped (take500 v)) ∧
      (st.drawn.map DrawnLine.text).take
          (1 + (wrapText meas (take500 v) maxTextWidth bodySize).length) =
        processText (titleParam ps) :: wrapText meas (take500 v) maxTextWidth bodySize ∧
      take500 v = String.mk (v.data.take MAX_VALUE_LEN) := by
  have hvne : v ≠ "" := by
    intro h
    subst h
    simp [MAX_VALUE_LEN] at hlen
  have hps : ¬ ps.length = 0 := by
    intro h
    rw [List.length_eq_zero] at h
    subst h
    simp [textParam, getParam] at hv
  unfold buildPdf at hok
  rw [if_neg hps] at hok
  unfold echoFlow at hok
  cases h1 : echoThroughExtra noDrawFailure meas ps initState with
  | error e => rw [h1] at hok; cases hok
  | ok s1 =>
  rw [h1] at hok
  dsimp only at hok
  cases h2 : drawSectionHeader noDrawFailure "Disclaimer" s1 with
  | error e => rw [h2] at hok; cases hok
  | ok s2 =>
  rw [h2] at hok
  -- decompose the echo prefix
  unfold echoThroughExtra at h1
  rw [drawTitle_from_init (titleParam ps)] at h1
  dsimp only at h1
  cases h3 : echoTextStage noDrawFailure meas ps
      { pages := 1, y := height - margin - lineHeight * 2,
        drawn := [⟨1, processText (titleParam ps), margin, height - margin, titleSize⟩],
        calls := [Call.title (titleParam ps)] } with
  | error e => rw [h3] at h1; cases h1
  | ok s3 =>
  rw [h3] at h1
  have hc3 : s3.calls = [Call.title (titleParam ps), Call.wrapped (take500 v)] := by
    rw [echoTextStage_calls noDrawFailure meas ps _ s3 h3,
      textStageCalls_of_text ps v hv hvne]
    rfl
  have hd3 : s3.drawn.map DrawnLine.text =
      processText (titleParam ps) :: wrapText meas (take500 v) maxTextWidth bodySize := by
    rw [echoTextStage_drawn_texts meas ps _ s3 v hv hvne h3]
    rfl
  have hc1 : s1.calls = s3.calls ++ extraSectionCalls ps :=
    echoExtraStage_calls noDrawFailure meas ps s3 s1 h1
  rcases echoExtraStage_drawn_ext noDrawFailure meas ps s3 s1 h1 with ⟨dx, hdx⟩
  have hc2 : s2.calls = s1.calls ++ [Call.header "Disclaimer"] :=
    drawSectionHeader_calls noDrawFailure _ s1 s2 h2
  rcases drawSectionHeader_drawn_ext noDrawFailure _ s1 s2 h2 with ⟨r2, hr2⟩
  have hcst : st.calls = s2.calls ++ [Call.wrapped echoDisclaimer] :=
    drawWrapped_calls noDrawFailure meas _ _ _ _ s2 st hok
  rcases drawWrapped_drawn_ext noDrawFailure meas _ _ _ _ s2 st hok with ⟨d4, hd4⟩
  refine ⟨?_, ?_, rfl⟩
  · rw [hcst, hc2, hc1, hc3]
    simp
  · rw [hd4, hr2, hdx]
    rw [List.map_append, List.map_append, List.map_append, hd3]
    rw [show 1 + (wrapText meas (take500 v) maxTextWidth bodySize).length =
      (processText (titleParam ps) :: wrapText meas (take500 v) maxTextWidth bodySize).length by
        simp [Nat.add_comm]]
    rw [List.append_assoc, List.append_assoc]
    exact List.take_left _ _

set_option maxRecDepth 1000000 in
/-- Witness for C7's theorem at a concrete input: a 501-character text
value. -/
theorem text_truncated_before_layout_witness :
    (resultState (buildPdf noDrawFailure estimateOnly "https://x.test" "/"
        [("text", String.mk (List.replicate 501 'b'))])).calls[1]? =
      some (Call.wrapped (take500 (String.mk (List.replicate 501 'b')))) :=
  (text_truncated_before_layout estimateOnly "https://x.test" "/"
    [("text", String.mk (List.replicate 501 'b'))] (String.mk (List.replicate 501 'b'))
    (resultState (buildPdf noDrawFailure estimateOnly "https://x.test" "/"
      [("text", String.mk (List.replicate 501 'b'))]))
    (by decide) (by decide) (by with_unfolding_all rfl)).1

lemma asciiFallback_printable (s : String) :
    ∀ c ∈ (asciiFallback s).data, asciiPrintable c = true := by
  intro c hc
  have hdata : (asciiFallback s).data =
      s.data.map (fun c => if asciiPrintable c then c else '?') := rfl
  rw [hdata] at hc
  rcases List.mem_map.mp hc with ⟨c0, _, rfl⟩
  by_cases h : asciiPrintable c0
  · rwa [if_pos h]
  · rw [if_neg h]
    decide

/-- If draws fail only on strings containing a non-printable character,
the `'?'` fallback of any string never fails to draw. -/
lemma fails_fallback_false (fails : String → Bool)
    (H : ∀ s, fails s = true → ∃ c ∈ s.data, asciiPrintable c = false)
    (line : String) : fails (asciiFallback line) = false := by
  by_contra h
  rw [Bool.not_eq_false] at h
  rcases H _ h with ⟨c, hc, hcp⟩
  rw [asciiFallback_printable line c hc] at hcp
  cases hcp

lemma drawLine_total (fails : String → Bool)
    (H : ∀ s, fails s = true → ∃ c ∈ s.data, asciiPrintable c = false)
    (line : String) (x sz : ℚ) (st : LayoutState) :
    ∃ st2, drawLine fails line x sz st = Except.ok st2 := by
  unfold drawLine drawTextTry
  by_cases hf : fails line = true
  · rw [if_pos hf, if_neg (by simp [fails_fallback_false fails H line])]
    exact ⟨_, rfl⟩
  · rw [if_neg hf]
    exact ⟨_, rfl⟩

lemma drawLines_total (fails : String → Bool)
    (H : ∀ s, fails s = true → ∃ c ∈ s.data, asciiPrintable c = false) (x sz : ℚ) :
    ∀ (ls : List String) (st : LayoutState),
      ∃ st2, drawLines fails x sz ls st = Except.ok st2 := by
  intro ls
  induction ls with
  | nil => intro st; exact ⟨st, rfl⟩
  | cons l ls ih =>
    intro st
    obtain ⟨s1, h1⟩ := drawLine_total fails H l x sz st
    obtain ⟨s2, h2⟩ := ih s1
    refine ⟨s2, ?_⟩
    unfold drawLines
    rw [h1]
    exact h2

lemma drawWrapped_total (fails : String → Bool)
    (H : ∀ s, fails s = true → ∃ c ∈ s.data, asciiPrintable c = false)
    (meas : String → Option ℚ) (text : String) (x maxW sz : ℚ) (st : LayoutState) :
    ∃ st2, drawWrapped fails meas text x maxW sz st = Except.ok st2 := by
  unfold drawWrapped
  exact drawLines_total fails H x sz _ _

lemma drawTitle_total (fails : String → Bool)
    (H : ∀ s, fails s = true → ∃ c ∈ s.data, asciiPrintable c = false)
    (text : String) (st : LayoutState) :
    ∃ st2, drawTitle fails text st = Except.ok st2 := by
  unfold drawTitle drawTextTry
  dsimp only
  by_cases hf : fails (processText text) = true
  · rw [if_pos hf, if_neg (by simp [fails_fallback_false fails H (processText text)])]
    exact ⟨_, rfl⟩
  · rw [if_neg hf]
    exact ⟨_, rfl⟩

lemma drawSectionHeader_total (fails : String → Bool)
    (H : ∀ s, fails s = true → ∃ c ∈ s.data, asciiPrintable c = false)
    (text : String) (st : LayoutState) :
    ∃ st2, drawSectionHeader fails text st = Except.ok st2 := by
  unfold drawSectionHeader drawTextTry
  dsimp only
  by_cases hf : fails (processText text) = true
  · rw [if_pos hf, if_neg (by simp [fails_fallback_false fails H (processText text)])]
    exact ⟨_, rfl⟩
  · rw [if_neg hf]
    exact ⟨_, rfl⟩

lemma drawEach_total (fails : String → Bool)
    (H : ∀ s, fails s = true → ∃ c ∈ s.data, asciiPrintable c = false)
    (meas : String → Option ℚ) :
    ∀ (ls : List String) (st : LayoutState),
      ∃ st2, drawEach fails meas ls st = Except.ok st2 := by
  intro ls
  induction ls with
  | nil => intro st; exact ⟨st, rfl⟩
  | cons l ls ih =>
    intro st
    obtain ⟨s1, h1⟩ := drawWrapped_total fails H meas l margin maxTextWidth bodySize st
    obtain ⟨s2, h2⟩ := ih s1
    refine ⟨s2, ?_⟩
    unfold drawEach
    rw [h1]
    exact h2

lemma drawParamLines_total (fails : String → Bool)
    (H : ∀ s, fails s = true → ∃ c ∈ s.data, asciiPrintable c = false)
    (meas : String → Option ℚ) :
    ∀ (ps : List (String × String)) (st : LayoutState),
      ∃ st2, drawParamLines fails meas ps st = Except.ok st2 := by
  intro ps
  induction ps with
  | nil => intro st; exact ⟨st, rfl⟩
  | cons p rest ih =>
    intro st
    obtain ⟨s1, h1⟩ := drawWrapped_total fails H meas (paramLine p) margin maxTextWidth bodySize st
    obtain ⟨s2, h2⟩ := ih s1
    refine ⟨s2, ?_⟩
    unfold drawParamLines
    rw [h1]
    exact h2

lemma echoTextStage_total (fails : String → Bool)
    (H : ∀ s, fails s = true → ∃ c ∈ s.data, asciiPrintable c = false)
    (meas : String → Option ℚ) (ps : List (String × String)) (st : LayoutState) :
    ∃ st2, echoTextStage fails meas ps st = Except.ok st2 := by
  unfold echoTextStage
  cases htp : textParam ps with
  | none => exact ⟨st, rfl⟩
  | some v =>
    dsimp only
    by_cases hv : v = ""
    · rw [if_pos hv]
      exact ⟨st, rfl⟩
    · rw [if_neg hv]
      obtain ⟨s1, h1⟩ := drawWrapped_total fails H meas (take500 v) margin maxTextWidth bodySize st
      rw [h1]
      exact ⟨_, rfl⟩

lemma echoExtraStage_total (fails : String → Bool)
    (H : ∀ s, fails s = true → ∃ c ∈ s.data, asciiPrintable c = false)
    (meas : String → Option ℚ) (ps : List (String × String)) (st : LayoutState) :
    ∃ st2, echoExtraStage fails meas ps st = Except.ok st2 := by
  unfold echoExtraStage
  by_cases hx : (extraParams ps).length > 0
  · rw [if_pos hx]
    obtain ⟨s1, h1⟩ := drawSectionHeader_total fails H "Extra information" st
    rw [h1]
    dsimp only
    by_cases hn : overflowCount ps > MAX_PARAMS
    · rw [if_pos hn]
      obtain ⟨s2, h2⟩ := drawWrapped_total fails H meas extraNote margin maxTextWidth bodySize s1
      rw [h2]
      dsimp only
      obtain ⟨s3, h3⟩ := drawParamLines_total fails H meas (extraParams ps) (decY lineHeight s2)
      rw [h3]
      exact ⟨_, rfl⟩
    · rw [if_neg hn]
      dsimp only
      obtain ⟨s3, h3⟩ := drawParamLines_total fails H meas (extraParams ps) s1
      rw [h3]
      exact ⟨_, rfl⟩
  · rw [if_neg hx]
    exact ⟨st, rfl⟩

lemma echoFlow_total (fails : String → Bool)
    (H : ∀ s, fails s = true → ∃ c ∈ s.data, asciiPrintable c = false)
    (meas : String → Option ℚ) (ps : List (String × String)) (st : LayoutState) :
    ∃ st2, echoFlow fails meas ps st = Except.ok st2 := by
  unfold echoFlow echoThroughExtra
  obtain ⟨s1, h1⟩ := drawTitle_total fails H (titleParam ps) st
  rw [h1]
  dsimp only
  obtain ⟨s2, h2⟩ := echoTextStage_total fails H meas ps s1
  rw [h2]
  dsimp only
  obtain ⟨s3, h3⟩ := echoExtraStage_total fails H meas ps s2
  rw [h3]
  dsimp only
  obtain ⟨s4, h4⟩ := drawSectionHeader_total fails H "Disclaimer" s3
  rw [h4]
  dsimp only
  exact drawWrapped_total fails H meas echoDisclaimer margin maxTextWidth bodySize s4

lemma instructionsFlow_total (fails : String → Bool)
    (H : ∀ s, fails s = true → ∃ c ∈ s.data, asciiPrintable c = false)
    (meas : String → Option ℚ) (origin pathname : String) (st : LayoutState) :
    ∃ st2, instructionsFlow fails meas origin pathname st = Except.ok st2 := by
  unfold instructionsFlow
  obtain ⟨s1, h1⟩ := drawTitle_total fails H instrTitle st
  rw [h1]
  dsimp only
  obtain ⟨s2, h2⟩ := drawSectionHeader_total fails H "Purpose" s1
  rw [h2]
  dsimp only
  obtain ⟨s3, h3⟩ := drawWrapped_total fails H meas purposeText margin maxTextWidth bodySize s2
  rw [h3]
  dsimp only
  obtain ⟨s4, h4⟩ := drawSectionHeader_total fails H "Use Cases" (decY lineHeight s3)
  rw [h4]
  dsimp only
  obtain ⟨s5, h5⟩ := drawEach_total fails H meas useCasesLines s4
  rw [h5]
  dsimp only
  obtain ⟨s6, h6⟩ := drawSectionHeader_total fails H "Example Usage" (decY lineHeight s5)
  rw [h6]
  dsimp only
  obtain ⟨s7, h7⟩ := drawWrapped_total fails H meas (exampleLine origin pathname)
    margin maxTextWidth bodySize s6
  rw [h7]
  dsimp only
  obtain ⟨s8, h8⟩ := drawSectionHeader_total fails H "Notes" (decY (lineHeight * 2) s7)
  rw [h8]
  dsimp only
  obtain ⟨s9, h9⟩ := drawEach_total fails H meas notesLines s8
  rw [h9]
  dsimp only
  obtain ⟨s10, h10⟩ := drawSectionHeader_total fails H "Disclaimer" (decY lineHeight s9)
  rw [h10]
  dsimp only
  exact drawWrapped_total fails H meas instrDisclaimer margin maxTextWidth bodySize s10

/-- C8 (confirmed).  If the draw collaborator fails only on strings that
contain a character outside U+0020–U+007E (glyph failures), then (1) the
whole PDF construction always succeeds — a glyph-draw failure is never
surfaced — and (2) whenever drawing a wrapped line fails, the same line
with every such character replaced by `'?'` is redrawn exactly once and
that redraw succeeds. -/
theorem glyph_failures_never_surface :
    ∀ fails : String → Bool,
      (∀ s, fails s = true → ∃ c ∈ s.data, asciiPrintable c = false) →
      (∀ (meas : String → Option ℚ) (origin pathname : String)
          (ps : List (String × String)),
        (buildPdf fails meas origin pathname ps).isOk = true) ∧
        (∀ (line : String) (x sz : ℚ) (st : LayoutState), fails line = true →
          fails (asciiFallback line) = false ∧
            drawLine fails line x sz st = Except.ok
              (decY lineHeight (pushDrawn (asciiFallback line) x sz
                (ensureSpace lineHeight st)))) ∧
        (∀ (text : String) (st : LayoutState), fails (processText text) = true →
          drawTitle fails text st = Except.ok
            (decY (lineHeight * 2) (pushDrawn (asciiFallback (processText text)) margin
              titleSize (ensureSpace (lineHeight * 2) (logCall (Call.title text) st))))) ∧
        (∀ (text : String) (st : LayoutState), fails (processText text) = true →
          drawSectionHeader fails text st = Except.ok
            (decY (lineHeight * (3 / 2)) (pushDrawn (asciiFallback (processText text)) margin
              sectionHeaderSize (ensureSpace (lineHeight * 2) (logCall (Call.header text) st))))) := by
  intro fails H
  refine ⟨?_, ?_, ?_, ?_⟩
  · intro meas origin pathname ps
    unfold buildPdf
    by_cases hps : ps.length = 0
    · rw [if_pos hps]
      obtain ⟨st2, h⟩ := instructionsFlow_total fails H meas origin pathname initState
      rw [h]
      rfl
    · rw [if_neg hps]
      obtain ⟨st2, h⟩ := echoFlow_total fails H meas ps initState
      rw [h]
      rfl
  · intro line x sz st hline
    refine ⟨fails_fallback_false fails H line, ?_⟩
    unfold drawLine drawTextTry
    rw [if_pos hline, if_neg (by simp [fails_fallback_false fails H line])]
  · intro text st htext
    unfold drawTitle drawTextTry
    dsimp only
    rw [if_pos htext, if_neg (by simp [fails_fallback_false fails H (processText text)])]
  · intro text st htext
    unfold drawSectionHeader drawTextTry
    dsimp only
    rw [if_pos htext, if_neg (by simp [fails_fallback_false fails H (processText text)])]

/-- A draw collaborator that fails exactly on strings containing a
character outside U+0020–U+007E. -/
def glyphFails : String → Bool :=
  fun s => s.data.any (fun c => !asciiPrintable c)

lemma glyphFails_glyphOnly :
    ∀ s, glyphFails s = true → ∃ c ∈ s.data, asciiPrintable c = false := by
  intro s h
  rcases List.any_eq_true.mp h with ⟨c, hc, hcp⟩
  exact ⟨c, hc, by simpa using hcp⟩

set_option maxRecDepth 100000 in
/-- Witness for C8's theorem at a concrete input. -/
theorem glyph_failures_never_surface_witness :
    (buildPdf glyphFails estimateOnly "https://x.test" "/" [("k", "v")]).isOk = true ∧
      drawLine glyphFails "é" margin bodySize initState = Except.ok
        (decY lineHeight (pushDrawn (asciiFallback "é") margin bodySize
          (ensureSpace lineHeight initState))) :=
  ⟨(glyph_failures_never_surface glyphFails glyphFails_glyphOnly).1 estimateOnly
      "https://x.test" "/" [("k", "v")],
    ((glyph_failures_never_surface glyphFails glyphFails_glyphOnly).2.1 "é" margin bodySize
      initState (by decide)).2⟩

/-- C9 (confirmed).  The handler returns status 500 with body
`Failed to generate PDF: <message>` exactly when an error escapes PDF
construction; otherwise it returns status 200 with
`Content-Type: application/pdf`,
`Content-Disposition: inline; filename="pdfthis.pdf"` and the PDF document
as body. -/
theorem response_status_contract (fails : String → Bool) (meas : String → Option ℚ)
    (origin pathname : String) (ps : List (String × String)) :
    ((fetchHandler fails meas origin pathname ps).status = 200 ∨
        (fetchHandler fails meas origin pathname ps).status = 500) ∧
      ((fetchHandler fails meas origin pathname ps).status = 500 ↔
        ∃ e, buildPdf fails meas origin pathname ps = Except.error e ∧
          fetchHandler fails meas origin pathname ps =
            ⟨500, none, none, ResponseBody.errorText ("Failed to generate PDF: " ++ e)⟩) ∧
      ((fetchHandler fails meas origin pathname ps).status = 200 ↔
        ∃ st, buildPdf fails meas origin pathname ps = Except.ok st ∧
          fetchHandler fails meas origin pathname ps =
            ⟨200, some "application/pdf", some "inline; filename=\"pdfthis.pdf\"",
              ResponseBody.pdfBytes st⟩) := by
  cases hb : buildPdf fails meas origin pathname ps with
  | ok st =>
    refine ⟨Or.inl (by simp [fetchHandler, hb]), ?_, ?_⟩
    · simp [fetchHandler, hb]
    · simp [fetchHandler, hb]
  | error e =>
    refine ⟨Or.inr (by simp [fetchHandler, hb]), ?_, ?_⟩
    · simp [fetchHandler, hb]
    · simp [fetchHandler, hb]

/-! Sanity checks that the embedded JavaScript semantics behave as in the
runtime: whitespace splitting with boundary empty tokens, transliteration of
control characters, whitespace collapsing and the character hard split. -/

example : splitWs "a  b" = ["a", "b"] := by decide
example : splitWs " a " = ["", "a", ""] := by decide
example : splitWs "" = [""] := by decide
example : processText "a\tb" = "a?b" := by decide
example : wrapText estimateOnly "a  b" 512 12 = ["a b"] := by with_unfolding_all decide
example : wrapText estimateOnly "ab" 5 12 = ["a", "b"] := by with_unfolding_all decide

end Pdfthis
